import Mathlib

/-!
Verification of the slot and booking allocation engine of the Community Water
Access Scheduler (cwas.py).

The embedding models the SQLite tables as lists of records and the engine
operations (slot generation, availability query, booking creation, the
approve/deny review transaction, cancellation, deposits) as pure state
transformers, translated statement by statement from the source:

* money is in integer cents (the DECIMAL columns);
* times of day are minutes since midnight (the TIME columns);
* SQL CHECK and UNIQUE constraints become guards; a constraint violation
  inside a transaction aborts it, and since the source commits only at the
  end of each transaction, an aborted transaction returns the original state
  (rollback on close);
* INSERT OR IGNORE skips the row when a UNIQUE or CHECK constraint fails;
* the SQL pattern `col LIKE ?` with a `%p%` argument is substring containment.
-/

namespace Cwas

/-- CHECK (status IN ('active', 'inactive', 'maintenance')) on water_sources. -/
inductive SourceStatus where
  | active
  | inactive
  | maintenance
deriving DecidableEq, Repr

/-- CHECK (status IN ('available', 'full', 'maintenance', 'cancelled')) on time_slots. -/
inductive SlotStatus where
  | available
  | full
  | maintenance
  | cancelled
deriving DecidableEq, Repr

/-- CHECK (booking_status IN ('pending', 'approved', 'denied', 'cancelled', 'completed')). -/
inductive BookingStatus where
  | pending
  | approved
  | denied
  | cancelled
  | completed
deriving DecidableEq, Repr

/-- CHECK (collection_status IN ('pending', 'completed', 'missed')). -/
inductive CollectionStatus where
  | pending
  | completed
  | missed
deriving DecidableEq, Repr

/-- CHECK (status IN ('active', 'inactive', 'suspended')) on households. -/
inductive HouseholdStatus where
  | active
  | inactive
  | suspended
deriving DecidableEq, Repr

/-- Payment methods offered by make_booking: option 1 is mobile, option 2 is cash. -/
inductive PaymentMethod where
  | mobile
  | cash
deriving DecidableEq, Repr

/-- A row of the water_sources table (columns relevant to the engine). -/
structure WaterSource where
  source_id : Nat
  source_name : String
  capacity_per_hour : Int
  operating_start_time : Nat
  operating_end_time : Nat
  status : SourceStatus
  price_per_100L : Int
  priority_access : String
deriving DecidableEq, Repr

/-- A row of the time_slots table. -/
structure TimeSlot where
  slot_id : Nat
  source_id : Nat
  slot_date : Nat
  start_time : Nat
  end_time : Nat
  max_households : Int
  current_bookings : Int
  status : SlotStatus
deriving DecidableEq, Repr

/-- A row of the households table (columns relevant to the engine).
The priority_level column is a string checked to be high, normal or low. -/
structure Household where
  household_id : Nat
  family_name : String
  priority_level : String
  status : HouseholdStatus
  balance : Int
deriving DecidableEq, Repr

/-- A row of the bookings table. The receipt_number string
WS{date}{booking_id} is modelled as the pair (date stamp, booking id),
which the format determines uniquely since the date part has fixed width. -/
structure Booking where
  booking_id : Nat
  household_id : Nat
  slot_id : Nat
  booking_status : BookingStatus
  collection_status : CollectionStatus
  water_amount_collected : Int
  amount_charged : Int
  approval_date : Option Nat
  receipt_number : Option (Nat × Nat)
  payment_method : PaymentMethod
deriving DecidableEq, Repr

/-- A row of the receipts table; receipt_number is UNIQUE. -/
structure Receipt where
  receipt_number : Nat × Nat
  household_id : Nat
  booking_id : Nat
  amount : Int
  water_amount : Int
  payment_method : PaymentMethod
deriving DecidableEq, Repr

/-- The persistent store created by init_database. The next_* counters model
the AUTOINCREMENT primary keys (lastrowid). -/
structure DB where
  sources : List WaterSource
  time_slots : List TimeSlot
  households : List Household
  bookings : List Booking
  receipts : List Receipt
  next_source_id : Nat
  next_slot_id : Nat
  next_household_id : Nat
  next_booking_id : Nat
deriving DecidableEq, Repr

/-- Fresh database: init_database creates empty tables; AUTOINCREMENT ids start at 1. -/
def initDB : DB :=
  { sources := [], time_slots := [], households := [], bookings := [], receipts := []
    next_source_id := 1, next_slot_id := 1, next_household_id := 1, next_booking_id := 1 }

/-- SELECT ... FROM water_sources WHERE source_id = ? (source_id is the primary key). -/
def findSource (db : DB) (sid : Nat) : Option WaterSource :=
  db.sources.find? (fun ws => ws.source_id == sid)

/-- SELECT ... FROM bookings WHERE booking_id = ? (booking_id is the primary key). -/
def findBooking (db : DB) (bid : Nat) : Option Booking :=
  db.bookings.find? (fun b => b.booking_id == bid)

/-- The receipt number WS{YYYYMMDD}{booking_id:04d} built in create_booking and
review_bookings, as the pair of the date stamp and the booking id. -/
def mkReceiptNumber (today bid : Nat) : Nat × Nat := (today, bid)

/-! ### Slot generation (generate_time_slots) -/

/-- The loop body of the slot generation, with a structural fuel bound so
that the kernel can evaluate it; the fuel is immaterial as soon as it
covers the remaining window (slotTimesAux_eq below). -/
def slotTimesAux : Nat → Nat → Nat → List (Nat × Nat)
  | 0, _, _ => []
  | fuel + 1, endT, current =>
    if current < endT then
      if current + 60 > endT then []
      else (current, current + 60) :: slotTimesAux fuel endT (current + 60)
    else []

/-- The candidate (start, end) pairs produced by the generation loop:
starting from the operating start, emit one-hour slots while the slot end
does not pass the operating end. Translated from the while loop of
generate_time_slots: while current < end, slot_end = current + 60 minutes,
break when slot_end passes the end time, else emit and advance. The loop
runs at most endT times, so endT is sufficient fuel. -/
def slotTimes (endT : Nat) (current : Nat) : List (Nat × Nat) :=
  slotTimesAux endT endT current

/-- UNIQUE(source_id, slot_date, start_time, end_time) membership test. -/
def slotKeyExists (slots : List TimeSlot) (sid d st en : Nat) : Bool :=
  slots.any (fun s => s.source_id == sid && s.slot_date == d && s.start_time == st && s.end_time == en)

/-- The time_slots CHECK constraints evaluated on a fresh row with
current_bookings = 0 and max_households = cap:
max_households > 0, end_time > start_time, 0 <= 0 <= cap. -/
def slotChecksOk (cap : Int) (st en : Nat) : Bool :=
  decide (0 < cap) && decide (st < en)

/-- The slot row inserted by the generation loop: current_bookings and
status take their column defaults (0, available). -/
def freshSlot (db : DB) (sid d : Nat) (cap : Int) (st en : Nat) : TimeSlot :=
  { slot_id := db.next_slot_id, source_id := sid, slot_date := d,
    start_time := st, end_time := en, max_households := cap,
    current_bookings := 0, status := SlotStatus.available }

/-- INSERT OR IGNORE INTO time_slots: skipped when the uniqueness key is
already present or a CHECK constraint fails; returns whether a row was
inserted (cursor.rowcount > 0). -/
def insertSlotOrIgnore (db : DB) (sid d : Nat) (cap : Int) (st en : Nat) : DB × Bool :=
  if slotKeyExists db.time_slots sid d st en || !slotChecksOk cap st en then (db, false)
  else
    ({ db with
        time_slots := db.time_slots ++ [freshSlot db sid d cap st en]
        next_slot_id := db.next_slot_id + 1 }, true)

/-- The insertion loop of generate_time_slots over the candidate pairs,
counting newly created slots. -/
def insertSlotsLoop (sid d : Nat) (cap : Int) : DB → List (Nat × Nat) → DB × Nat
  | db, [] => (db, 0)
  | db, (st, en) :: rest =>
    let step := insertSlotOrIgnore db sid d cap st en
    let restRes := insertSlotsLoop sid d cap step.1 rest
    (restRes.1, (if step.2 then 1 else 0) + restRes.2)

/-- generate_time_slots for a chosen source and target date. The source is
chosen from the list of active sources; the loop inserts one-hour slots with
max_households = capacity_per_hour and returns the count of created slots. -/
def generate_time_slots (db : DB) (source_id target_date : Nat) : DB × Nat :=
  match findSource db source_id with
  | none => (db, 0)
  | some ws =>
    if ws.status = SourceStatus.active then
      insertSlotsLoop source_id target_date ws.capacity_per_hour db
        (slotTimes ws.operating_end_time ws.operating_start_time)
    else (db, 0)

/-! ### Booking creation (create_booking) -/

/-- The booking row inserted by create_booking: booking_status and
collection_status take their column defaults; the receipt number is set by
the UPDATE immediately after the INSERT, within the same transaction. -/
def newBooking (bid hh sid : Nat) (water cost : Int) (pm : PaymentMethod) (today : Nat) : Booking :=
  { booking_id := bid, household_id := hh, slot_id := sid,
    booking_status := BookingStatus.pending, collection_status := CollectionStatus.pending,
    water_amount_collected := water, amount_charged := cost,
    approval_date := none, receipt_number := some (mkReceiptNumber today bid),
    payment_method := pm }

/-- create_booking: a single INSERT (plus receipt-number UPDATE) in one
transaction. It fails, changing nothing, when the UNIQUE(household_id,
slot_id) constraint is violated, when a foreign key is missing (PRAGMA
foreign_keys = ON), or when CHECK (water_amount_collected > 0) fails; on
success it returns the fresh booking id (lastrowid). -/
def create_booking (db : DB) (household_id slot_id : Nat) (water_amount estimated_cost : Int)
    (pm : PaymentMethod) (today : Nat) : DB × Option Nat :=
  if db.bookings.any (fun b => b.household_id == household_id && b.slot_id == slot_id) then
    (db, none)
  else if !(db.time_slots.any (fun s => s.slot_id == slot_id)) then (db, none)
  else if !(db.households.any (fun h => h.household_id == household_id)) then (db, none)
  else if water_amount ≤ 0 then (db, none)
  else
    ({ db with
        bookings := db.bookings ++
          [newBooking db.next_booking_id household_id slot_id water_amount estimated_cost pm today]
        next_booking_id := db.next_booking_id + 1 }, some db.next_booking_id)

/-! ### Review transaction (review_bookings): approve and deny -/

inductive ReviewOutcome where
  | ok
  | notFound
  | capacityExceeded
deriving DecidableEq, Repr

/-- UPDATE bookings SET booking_status = 'approved', approval_date = ?
WHERE booking_id = ?  (note: no booking_status = 'pending' condition). -/
def approveUpdateBooking (bid now : Nat) (x : Booking) : Booking :=
  if x.booking_id == bid then
    { x with booking_status := BookingStatus.approved, approval_date := some now }
  else x

/-- The time_slots CHECK constraints on the incremented row:
current_bookings + 1 must stay within [0, max_households]. -/
def slotWouldViolate (s : TimeSlot) : Bool :=
  decide (s.max_households < s.current_bookings + 1) || decide (s.current_bookings + 1 < 0)

/-- UPDATE time_slots SET current_bookings = current_bookings + 1 WHERE slot_id = ?. -/
def approveIncSlot (sid : Nat) (s : TimeSlot) : TimeSlot :=
  if s.slot_id == sid then { s with current_bookings := s.current_bookings + 1 } else s

/-- UPDATE households SET balance = balance - ? WHERE household_id = ?. -/
def debitHousehold (hid : Nat) (amount : Int) (h : Household) : Household :=
  if h.household_id == hid then { h with balance := h.balance - amount } else h

/-- UPDATE bookings SET receipt_number = ? WHERE booking_id = ?. -/
def setBookingReceiptNumber (bid : Nat) (rn : Nat × Nat) (x : Booking) : Booking :=
  if x.booking_id == bid then { x with receipt_number := some rn } else x

/-- The approve branch of review_bookings, one transaction:
flip the booking to approved and stamp the approval date (with no check of
the previous status), increment the slot counter, debit the household for
mobile payments, ensure a receipt number, and INSERT OR IGNORE one receipt.
A CHECK violation on the slot increment (slot already at capacity) raises
and rolls the whole transaction back, so the original state is returned.
A missing booking makes the notification lookup raise, with the same
rollback. -/
def review_approve (db : DB) (booking_id now : Nat) : DB × ReviewOutcome :=
  match findBooking db booking_id with
  | none => (db, ReviewOutcome.notFound)
  | some b =>
    if db.time_slots.any (fun s => s.slot_id == b.slot_id && slotWouldViolate s) then
      (db, ReviewOutcome.capacityExceeded)
    else
      let bookings1 := db.bookings.map (approveUpdateBooking booking_id now)
      let slots1 := db.time_slots.map (approveIncSlot b.slot_id)
      let households1 :=
        if b.payment_method = PaymentMethod.mobile then
          db.households.map (debitHousehold b.household_id b.amount_charged)
        else db.households
      let rn :=
        match b.receipt_number with
        | some rn => rn
        | none => mkReceiptNumber now booking_id
      let bookings2 :=
        match b.receipt_number with
        | some _ => bookings1
        | none => bookings1.map (setBookingReceiptNumber booking_id rn)
      let receipts1 :=
        if db.receipts.any (fun r => r.receipt_number == rn) then db.receipts
        else db.receipts ++
          [{ receipt_number := rn, household_id := b.household_id, booking_id := booking_id,
             amount := b.amount_charged, water_amount := b.water_amount_collected,
             payment_method := b.payment_method }]
      ({ db with bookings := bookings2, time_slots := slots1, households := households1,
                 receipts := receipts1 }, ReviewOutcome.ok)

/-- UPDATE bookings SET booking_status = 'denied', approval_date = ?
WHERE booking_id = ?, followed by the notification lookup; a missing booking
raises there and rolls back. -/
def review_deny (db : DB) (booking_id now : Nat) : DB × ReviewOutcome :=
  match findBooking db booking_id with
  | none => (db, ReviewOutcome.notFound)
  | some _ =>
    ({ db with
        bookings := db.bookings.map (fun x =>
          if x.booking_id == booking_id then
            { x with booking_status := BookingStatus.denied, approval_date := some now }
          else x) }, ReviewOutcome.ok)

/-! ### Cancellation and funding -/

inductive CancelOutcome where
  | ok
  | notFound
  | notCancellable
deriving DecidableEq, Repr

/-- cancel_booking: the owning household may cancel a booking of status
pending or approved; the status becomes cancelled and nothing else changes
(in particular no slot decrement and no refund). -/
def cancel_booking (db : DB) (booking_id household_id : Nat) : DB × CancelOutcome :=
  match db.bookings.find? (fun b => b.booking_id == booking_id && b.household_id == household_id) with
  | none => (db, CancelOutcome.notFound)
  | some b =>
    if b.booking_status = BookingStatus.pending ∨ b.booking_status = BookingStatus.approved then
      ({ db with
          bookings := db.bookings.map (fun x =>
            if x.booking_id == booking_id && x.household_id == household_id then
              { x with booking_status := BookingStatus.cancelled }
            else x) }, CancelOutcome.ok)
    else (db, CancelOutcome.notCancellable)

/-- add_funds: a positive amount is added to the household balance;
non-positive amounts are rejected before any update. -/
def add_funds (db : DB) (household_id : Nat) (amount : Int) : DB :=
  if amount ≤ 0 then db
  else
    { db with
        households := db.households.map (fun h =>
          if h.household_id == household_id then { h with balance := h.balance + amount } else h) }

/-! ### Availability query (get_available_slots) -/

/-- Whether the pattern list occurs at the head of the text list. -/
def charsPrefixOf : List Char → List Char → Bool
  | [], _ => true
  | _ :: _, [] => false
  | a :: as, b :: bs => a == b && charsPrefixOf as bs

/-- Whether the pattern list occurs somewhere inside the text list. -/
def charsContains (hay pat : List Char) : Bool :=
  match hay with
  | [] => pat.isEmpty
  | _ :: t => charsPrefixOf pat hay || charsContains t pat

/-- The SQL condition `hay LIKE '%pat%'` for a wildcard-free pattern:
substring containment. The priority strings involved are lowercase, so the
case-insensitivity of LIKE does not matter here. -/
def likeContains (hay pat : String) : Bool :=
  charsContains hay.data pat.data

/-- One row of the SELECT in get_available_slots: slot columns joined with
the source name, price and priority rule of the parent source. -/
structure AvailableSlotRow where
  slot_id : Nat
  source_name : String
  slot_date : Nat
  start_time : Nat
  end_time : Nat
  current_bookings : Int
  max_households : Int
  price_per_100L : Int
  priority_access : String
deriving DecidableEq, Repr

/-- The row built from a slot and its parent source. -/
def rowOf (ts : TimeSlot) (ws : WaterSource) : AvailableSlotRow :=
  { slot_id := ts.slot_id, source_name := ws.source_name, slot_date := ts.slot_date,
    start_time := ts.start_time, end_time := ts.end_time,
    current_bookings := ts.current_bookings, max_households := ts.max_households,
    price_per_100L := ws.price_per_100L, priority_access := ws.priority_access }

/-- ORDER BY ws.source_name, ts.start_time as a relation on result rows. -/
def availRowLE (a b : AvailableSlotRow) : Prop :=
  a.source_name < b.source_name ∨ (a.source_name = b.source_name ∧ a.start_time ≤ b.start_time)

instance : DecidableRel availRowLE := fun a b => by
  unfold availRowLE; infer_instance

instance : IsTotal AvailableSlotRow availRowLE where
  total a b := by
    unfold availRowLE
    rcases lt_trichotomy a.source_name b.source_name with h | h | h
    · exact Or.inl (Or.inl h)
    · rcases Nat.le_total a.start_time b.start_time with h2 | h2
      · exact Or.inl (Or.inr ⟨h, h2⟩)
      · exact Or.inr (Or.inr ⟨h.symm, h2⟩)
    · exact Or.inr (Or.inl h)

instance : IsTrans AvailableSlotRow availRowLE where
  trans a b c hab hbc := by
    unfold availRowLE at *
    rcases hab with h1 | ⟨h1, h1t⟩
    · rcases hbc with h2 | ⟨h2, _⟩
      · exact Or.inl (h1.trans h2)
      · exact Or.inl (h2 ▸ h1)
    · rcases hbc with h2 | ⟨h2, h2t⟩
      · exact Or.inl (h1 ▸ h2)
      · exact Or.inr ⟨h1.trans h2, h1t.trans h2t⟩

/-- The WHERE clause of get_available_slots applied to one slot, joined
with its parent source (source_id is a primary key, so the join yields at
most one row per slot). -/
def availRowOf (db : DB) (date : Nat) (priority : String) (ts : TimeSlot) :
    Option AvailableSlotRow :=
  match findSource db ts.source_id with
  | none => none
  | some ws =>
    if ts.slot_date == date && ts.status == SlotStatus.available
        && decide (ts.current_bookings < ts.max_households)
        && ws.status == SourceStatus.active
        && (ws.priority_access == ("all" : String) || likeContains ws.priority_access priority) then
      some (rowOf ts ws)
    else none

/-- get_available_slots: slots of the given date that are available and not
at capacity, whose parent source is active and whose priority rule is the
string all or contains the requester tier (LIKE '%tier%'), ordered by
source name then start time. A pure read: no state is modified. -/
def get_available_slots (db : DB) (date : Nat) (priority : String) : List AvailableSlotRow :=
  List.insertionSort availRowLE (db.time_slots.filterMap (availRowOf db date priority))

/-! ### Administration: creating sources and households -/

/-- add_water_source: INSERT with status and priority_access taking their
column defaults (active, all); the CHECK constraints capacity_per_hour > 0
and operating_end_time > operating_start_time reject the row otherwise. -/
def add_water_source (db : DB) (name : String) (cap : Int) (st en : Nat) (price : Int) :
    DB × Option Nat :=
  if 0 < cap ∧ st < en then
    ({ db with
        sources := db.sources ++
          [{ source_id := db.next_source_id, source_name := name, capacity_per_hour := cap,
             operating_start_time := st, operating_end_time := en,
             status := SourceStatus.active, price_per_100L := price,
             priority_access := ("all" : String) }]
        next_source_id := db.next_source_id + 1 }, some db.next_source_id)
  else (db, none)

/-- add_household: an unknown priority string is coerced to normal before the
INSERT; status takes its column default (active). -/
def add_household (db : DB) (name : String) (priority : String) (balance : Int) : DB × Nat :=
  let p := if priority = ("high" : String) ∨ priority = ("normal" : String) ∨ priority = ("low" : String)
    then priority else ("normal" : String)
  ({ db with
      households := db.households ++
        [{ household_id := db.next_household_id, family_name := name, priority_level := p,
           status := HouseholdStatus.active, balance := balance }]
      next_household_id := db.next_household_id + 1 }, db.next_household_id)

/-! ### The engine as a state machine -/

/-- One engine operation, as exposed to the menu layer; the two
administration operations that populate the catalog are included so that
reachable states contain sources, households, slots, bookings and receipts. -/
inductive Op where
  | addSource (name : String) (cap : Int) (st en : Nat) (price : Int)
  | addHousehold (name : String) (priority : String) (balance : Int)
  | generateSlots (source_id target_date : Nat)
  | createBooking (household_id slot_id : Nat) (water cost : Int) (pm : PaymentMethod) (today : Nat)
  | approveBooking (booking_id now : Nat)
  | denyBooking (booking_id now : Nat)
  | cancelBooking (booking_id household_id : Nat)
  | deposit (household_id : Nat) (amount : Int)
deriving DecidableEq, Repr

/-- Apply one operation to the store, discarding the returned value. -/
def applyOp (db : DB) : Op → DB
  | Op.addSource n c s e p => (add_water_source db n c s e p).1
  | Op.addHousehold n p bal => (add_household db n p bal).1
  | Op.generateSlots sid d => (generate_time_slots db sid d).1
  | Op.createBooking hh sid w c pm d => (create_booking db hh sid w c pm d).1
  | Op.approveBooking bid now => (review_approve db bid now).1
  | Op.denyBooking bid now => (review_deny db bid now).1
  | Op.cancelBooking bid hh => (cancel_booking db bid hh).1
  | Op.deposit hh amt => (add_funds db hh amt)

/-- Apply a sequence of operations. -/
def applyOps (db : DB) (ops : List Op) : DB := ops.foldl applyOp db

/-- A run of the program from the freshly initialized database. -/
def runOps (ops : List Op) : DB := applyOps initDB ops

/-! ## Lemmas about the slot generator -/

/-- With sufficient fuel, the generation loop emits exactly the one-hour
intervals that tile the remaining window. -/
theorem slotTimesAux_eq : ∀ (fuel endT current : Nat), endT - current ≤ 60 * fuel →
    slotTimesAux fuel endT current =
      (List.range ((endT - current) / 60)).map
        (fun k => (current + 60 * k, current + 60 * k + 60))
  | 0, endT, current, hfuel => by
    have : endT - current = 0 := by omega
    simp [slotTimesAux, this]
  | fuel + 1, endT, current, hfuel => by
    by_cases h1 : current < endT
    · by_cases h2 : current + 60 > endT
      · rw [slotTimesAux, if_pos h1, if_pos h2]
        have : (endT - current) / 60 = 0 := Nat.div_eq_of_lt (by omega)
        simp [this]
      · rw [slotTimesAux, if_pos h1, if_neg h2]
        have h60 : 60 ≤ endT - current := by omega
        have hdiv : (endT - current) / 60 = (endT - current - 60) / 60 + 1 :=
          Nat.div_eq_sub_div (by omega) h60
        have hsub : endT - (current + 60) = endT - current - 60 := by omega
        rw [slotTimesAux_eq fuel endT (current + 60) (by omega), hdiv,
          List.range_succ_eq_map, List.map_cons, List.map_map, hsub]
        refine congrArg₂ _ (by simp) ?_
        refine List.map_congr_left ?_
        intro k _
        simp only [Function.comp_apply, Nat.succ_eq_add_one, Prod.mk.injEq]
        omega
    · rw [slotTimesAux, if_neg h1]
      have : endT - current = 0 := by omega
      simp [this]

/-- The generation loop emits exactly the one-hour intervals that tile the
operating window, starting at the window start. -/
theorem slotTimes_eq (endT current : Nat) :
    slotTimes endT current =
      (List.range ((endT - current) / 60)).map
        (fun k => (current + 60 * k, current + 60 * k + 60)) := by
  rw [slotTimes, slotTimesAux_eq endT endT current (by omega)]

/-- The ignore case of the slot insert. -/
theorem insertSlotOrIgnore_skip (db : DB) (sid d : Nat) (cap : Int) (st en : Nat)
    (h : (slotKeyExists db.time_slots sid d st en || !slotChecksOk cap st en) = true) :
    insertSlotOrIgnore db sid d cap st en = (db, false) := by
  rw [insertSlotOrIgnore, if_pos h]

/-- The insert case of the slot insert. -/
theorem insertSlotOrIgnore_insert (db : DB) (sid d : Nat) (cap : Int) (st en : Nat)
    (h : (slotKeyExists db.time_slots sid d st en || !slotChecksOk cap st en) = false) :
    insertSlotOrIgnore db sid d cap st en =
      ({ db with
          time_slots := db.time_slots ++ [freshSlot db sid d cap st en]
          next_slot_id := db.next_slot_id + 1 }, true) := by
  rw [insertSlotOrIgnore, if_neg (by simp [h])]

/-- The slot insert touches only the time_slots table and the slot id
counter. -/
theorem insertSlotOrIgnore_frame (db : DB) (sid d : Nat) (cap : Int) (st en : Nat) :
    (insertSlotOrIgnore db sid d cap st en).1.sources = db.sources ∧
    (insertSlotOrIgnore db sid d cap st en).1.households = db.households ∧
    (insertSlotOrIgnore db sid d cap st en).1.bookings = db.bookings ∧
    (insertSlotOrIgnore db sid d cap st en).1.receipts = db.receipts ∧
    (insertSlotOrIgnore db sid d cap st en).1.next_booking_id = db.next_booking_id ∧
    (insertSlotOrIgnore db sid d cap st en).1.next_household_id = db.next_household_id ∧
    (insertSlotOrIgnore db sid d cap st en).1.next_source_id = db.next_source_id := by
  rw [insertSlotOrIgnore]
  split <;> simp

/-- The insertion loop touches only the time_slots table and the slot id
counter. -/
theorem insertSlotsLoop_frame (sid d : Nat) (cap : Int) :
    ∀ (l : List (Nat × Nat)) (db : DB),
      (insertSlotsLoop sid d cap db l).1.sources = db.sources ∧
      (insertSlotsLoop sid d cap db l).1.households = db.households ∧
      (insertSlotsLoop sid d cap db l).1.bookings = db.bookings ∧
      (insertSlotsLoop sid d cap db l).1.receipts = db.receipts ∧
      (insertSlotsLoop sid d cap db l).1.next_booking_id = db.next_booking_id ∧
      (insertSlotsLoop sid d cap db l).1.next_household_id = db.next_household_id ∧
      (insertSlotsLoop sid d cap db l).1.next_source_id = db.next_source_id
  | [], db => by simp [insertSlotsLoop]
  | (st, en) :: rest, db => by
    have ih := insertSlotsLoop_frame sid d cap rest (insertSlotOrIgnore db sid d cap st en).1
    have hstep := insertSlotOrIgnore_frame db sid d cap st en
    simp only [insertSlotsLoop]
    exact ⟨ih.1.trans hstep.1, ih.2.1.trans hstep.2.1, ih.2.2.1.trans hstep.2.2.1,
      ih.2.2.2.1.trans hstep.2.2.2.1, ih.2.2.2.2.1.trans hstep.2.2.2.2.1,
      ih.2.2.2.2.2.1.trans hstep.2.2.2.2.2.1, ih.2.2.2.2.2.2.trans hstep.2.2.2.2.2.2⟩

/-- The insertion loop only appends slots, and every appended slot belongs
to the requested source and date, starts empty, and has positive capacity. -/
theorem insertSlotsLoop_slots_append (sid d : Nat) (cap : Int) :
    ∀ (l : List (Nat × Nat)) (db : DB),
      ∃ new, (insertSlotsLoop sid d cap db l).1.time_slots = db.time_slots ++ new ∧
        ∀ x ∈ new, x.source_id = sid ∧ x.slot_date = d ∧
          x.current_bookings = 0 ∧ 0 < x.max_households
  | [], db => ⟨[], by simp [insertSlotsLoop], by simp⟩
  | (st, en) :: rest, db => by
    by_cases hc : (slotKeyExists db.time_slots sid d st en || !slotChecksOk cap st en) = true
    · obtain ⟨new1, hnew1, hprop1⟩ := insertSlotsLoop_slots_append sid d cap rest db
      refine ⟨new1, ?_, hprop1⟩
      simp only [insertSlotsLoop, insertSlotOrIgnore_skip db sid d cap st en hc]
      exact hnew1
    · rw [Bool.not_eq_true] at hc
      obtain ⟨new1, hnew1, hprop1⟩ := insertSlotsLoop_slots_append sid d cap rest
        ({ db with
            time_slots := db.time_slots ++ [freshSlot db sid d cap st en]
            next_slot_id := db.next_slot_id + 1 })
      refine ⟨freshSlot db sid d cap st en :: new1, ?_, ?_⟩
      · simp only [insertSlotsLoop, insertSlotOrIgnore_insert db sid d cap st en hc]
        rw [hnew1]
        simp
      · intro x hx
        rcases List.mem_cons.mp hx with hx | hx
        · subst hx
          have hok : slotChecksOk cap st en = true := by
            have := (Bool.or_eq_false_iff.mp hc).2
            simpa using this
          have hcap : decide (0 < cap) = true ∧ decide (st < en) = true := by
            simpa [slotChecksOk] using hok
          exact ⟨rfl, rfl, rfl, by simpa using hcap.1⟩
        · exact hprop1 x hx

/-- Existing slots survive the insertion loop unchanged. -/
theorem insertSlotsLoop_mem (sid d : Nat) (cap : Int) (l : List (Nat × Nat)) (db : DB)
    (s : TimeSlot) (hs : s ∈ db.time_slots) :
    s ∈ (insertSlotsLoop sid d cap db l).1.time_slots := by
  obtain ⟨new, hnew, -⟩ := insertSlotsLoop_slots_append sid d cap l db
  rw [hnew]
  exact List.mem_append_left _ hs

/-- A present uniqueness key stays present across the insertion loop. -/
theorem slotKeyExists_loop_mono (sid d : Nat) (cap : Int) (l : List (Nat × Nat)) (db : DB)
    (sid0 d0 st0 en0 : Nat) (h : slotKeyExists db.time_slots sid0 d0 st0 en0 = true) :
    slotKeyExists (insertSlotsLoop sid d cap db l).1.time_slots sid0 d0 st0 en0 = true := by
  obtain ⟨new, hnew, -⟩ := insertSlotsLoop_slots_append sid d cap l db
  rw [slotKeyExists] at h ⊢
  rw [hnew, List.any_append, h]
  rfl

/-- After the insertion loop, the key of every processed candidate that
passes the CHECK constraints is present. -/
theorem insertSlotsLoop_key_present (sid d : Nat) (cap : Int) :
    ∀ (l : List (Nat × Nat)) (db : DB) (st en : Nat),
      (st, en) ∈ l → slotChecksOk cap st en = true →
      slotKeyExists (insertSlotsLoop sid d cap db l).1.time_slots sid d st en = true
  | [], _, _, _, h, _ => by cases h
  | (a, b) :: rest, db, st, en, hmem, hok => by
    simp only [insertSlotsLoop]
    rcases List.mem_cons.mp hmem with heq | htail
    · have hst : a = st := congrArg Prod.fst heq.symm
      have hen : b = en := congrArg Prod.snd heq.symm
      subst hst; subst hen
      have hkey1 : slotKeyExists (insertSlotOrIgnore db sid d cap a b).1.time_slots
          sid d a b = true := by
        by_cases hc : (slotKeyExists db.time_slots sid d a b || !slotChecksOk cap a b) = true
        · rw [insertSlotOrIgnore_skip db sid d cap a b hc]
          rcases Bool.or_eq_true_iff.mp hc with h1 | h2
          · exact h1
          · rw [hok] at h2; cases h2
        · rw [Bool.not_eq_true] at hc
          rw [insertSlotOrIgnore_insert db sid d cap a b hc]
          simp [slotKeyExists, List.any_append, freshSlot]
      exact slotKeyExists_loop_mono sid d cap rest _ sid d a b hkey1
    · exact insertSlotsLoop_key_present sid d cap rest _ st en htail hok

/-- When every candidate key (that passes the checks) is already present,
the insertion loop is a no-op and reports zero created slots. -/
theorem insertSlotsLoop_noop (sid d : Nat) (cap : Int) :
    ∀ (l : List (Nat × Nat)) (db : DB),
      (∀ st en, (st, en) ∈ l → slotChecksOk cap st en = true →
        slotKeyExists db.time_slots sid d st en = true) →
      insertSlotsLoop sid d cap db l = (db, 0)
  | [], db, _ => rfl
  | (st, en) :: rest, db, h => by
    have hstep : insertSlotOrIgnore db sid d cap st en = (db, false) := by
      refine insertSlotOrIgnore_skip db sid d cap st en ?_
      by_cases hok : slotChecksOk cap st en = true
      · rw [h st en (List.mem_cons_self _ _) hok]
        rfl
      · rw [Bool.or_eq_true_iff]
        right
        simpa using hok
    simp only [insertSlotsLoop, hstep]
    rw [insertSlotsLoop_noop sid d cap rest db
      (fun st' en' hm hok => h st' en' (List.mem_cons_of_mem _ hm) hok)]
    simp

/-- findSource depends only on the sources table. -/
theorem findSource_congr (db db' : DB) (h : db'.sources = db.sources) (sid : Nat) :
    findSource db' sid = findSource db sid := by
  unfold findSource
  rw [h]

/-- On a store with no slot for the requested source and date, the insertion
loop inserts one slot per candidate (provided the candidate times are
increasing and pairwise distinct): the count equals the number of
candidates and the appended slots carry exactly the candidate times with
the requested capacity. -/
theorem insertSlotsLoop_fresh (sid d : Nat) (cap : Int) (hcap : 0 < cap) :
    ∀ (l : List (Nat × Nat)) (db : DB),
      (∀ p ∈ l, p.1 < p.2) →
      (∀ s ∈ db.time_slots, s.source_id = sid → s.slot_date = d →
        ∀ p ∈ l, s.start_time ≠ p.1) →
      l.Pairwise (fun a b => a.1 ≠ b.1) →
      (insertSlotsLoop sid d cap db l).2 = l.length ∧
      ∃ new, (insertSlotsLoop sid d cap db l).1.time_slots = db.time_slots ++ new ∧
        new.map (fun s => (s.start_time, s.end_time, s.max_households)) =
          l.map (fun p => (p.1, p.2, cap))
  | [], db, _, _, _ => ⟨rfl, [], by simp [insertSlotsLoop], by simp⟩
  | (st, en) :: rest, db, hlt, hfresh, hpw => by
    have hkey : slotKeyExists db.time_slots sid d st en = false := by
      rw [Bool.eq_false_iff]
      intro hk
      obtain ⟨s, hs, hmatch⟩ := List.any_eq_true.mp hk
      simp only [Bool.and_eq_true, beq_iff_eq] at hmatch
      exact hfresh s hs hmatch.1.1.1 hmatch.1.1.2 (st, en)
        (List.mem_cons_self _ _) hmatch.1.2
    have hlt0 : st < en := hlt (st, en) (List.mem_cons_self _ _)
    have hchecks : slotChecksOk cap st en = true := by
      simp [slotChecksOk, hcap, hlt0]
    have hcond : (slotKeyExists db.time_slots sid d st en || !slotChecksOk cap st en) = false := by
      rw [hkey, hchecks]
      rfl
    have hstep := insertSlotOrIgnore_insert db sid d cap st en hcond
    have ihfresh : ∀ s ∈ ({ db with
          time_slots := db.time_slots ++ [freshSlot db sid d cap st en]
          next_slot_id := db.next_slot_id + 1 } : DB).time_slots,
        s.source_id = sid → s.slot_date = d → ∀ p ∈ rest, s.start_time ≠ p.1 := by
      intro s hs hsid hsd p hp
      rcases List.mem_append.mp hs with hs | hs
      · exact hfresh s hs hsid hsd p (List.mem_cons_of_mem _ hp)
      · have hsf : s = freshSlot db sid d cap st en := by simpa using hs
        subst hsf
        have := (List.pairwise_cons.mp hpw).1 p hp
        simpa [freshSlot] using this
    obtain ⟨hcnt, new1, hnew1, hmap1⟩ := insertSlotsLoop_fresh sid d cap hcap rest _
      (fun p hp => hlt p (List.mem_cons_of_mem _ hp)) ihfresh (List.pairwise_cons.mp hpw).2
    refine ⟨?_, freshSlot db sid d cap st en :: new1, ?_, ?_⟩
    · simp only [insertSlotsLoop, hstep]
      simp [hcnt]
      omega
    · simp only [insertSlotsLoop, hstep]
      rw [hnew1]
      simp
    · simp only [List.map_cons, hmap1, freshSlot]

/-! ## State invariants -/

/-- The time_slots CHECK constraints: 0 <= current_bookings <= max_households. -/
def SlotBoundsInv (db : DB) : Prop :=
  ∀ s ∈ db.time_slots, 0 ≤ s.current_bookings ∧ s.current_bookings ≤ s.max_households

instance (db : DB) : Decidable (SlotBoundsInv db) :=
  inferInstanceAs (Decidable (∀ s ∈ db.time_slots,
    0 ≤ s.current_bookings ∧ s.current_bookings ≤ s.max_households))

/-- Booking ids are below the id counter and pairwise distinct
(booking_id is an AUTOINCREMENT primary key). -/
def BookingIdsInv (db : DB) : Prop :=
  (∀ b ∈ db.bookings, b.booking_id < db.next_booking_id) ∧
  (db.bookings.map (fun b => b.booking_id)).Nodup

/-- Receipt numbers are pairwise distinct (UNIQUE receipt_number), and every
receipt carries the stored receipt number of the booking it belongs to. -/
def ReceiptLinkInv (db : DB) : Prop :=
  (db.receipts.map (fun r => r.receipt_number)).Nodup ∧
  ∀ r ∈ db.receipts, ∃ b ∈ db.bookings, b.booking_id = r.booking_id ∧
    b.receipt_number = some r.receipt_number

/-- The part of the state invariant concerning bookings and receipts. -/
def LedgerInv (db : DB) : Prop := BookingIdsInv db ∧ ReceiptLinkInv db

/-- An update of the bookings table preserves the id projection when the
update function keeps booking ids. -/
theorem map_preserves_booking_ids (l : List Booking) (f : Booking → Booking)
    (hf : ∀ x, (f x).booking_id = x.booking_id) :
    (l.map f).map (fun b => b.booking_id) = l.map (fun b => b.booking_id) := by
  rw [List.map_map]
  exact List.map_congr_left (fun x _ => hf x)

/-- The ledger invariant transports along equality of the relevant fields. -/
theorem ledgerInv_congr (db db' : DB) (hb : db'.bookings = db.bookings)
    (hr : db'.receipts = db.receipts) (hn : db'.next_booking_id = db.next_booking_id)
    (h : LedgerInv db) : LedgerInv db' := by
  unfold LedgerInv BookingIdsInv ReceiptLinkInv at *
  rw [hb, hr, hn]
  exact h

/-- The slot bounds invariant transports along equality of time_slots. -/
theorem slotBoundsInv_congr (db db' : DB) (hs : db'.time_slots = db.time_slots)
    (h : SlotBoundsInv db) : SlotBoundsInv db' := by
  unfold SlotBoundsInv at *
  rw [hs]
  exact h

/-- An update of the bookings table that keeps ids and receipt numbers
preserves the ledger invariant. -/
theorem ledgerInv_map_bookings (db : DB) (f : Booking → Booking)
    (hid : ∀ x, (f x).booking_id = x.booking_id)
    (hrn : ∀ x, (f x).receipt_number = x.receipt_number)
    (h : LedgerInv db) :
    LedgerInv { db with bookings := db.bookings.map f } := by
  obtain ⟨⟨hlt, hnd⟩, hrnd, hlink⟩ := h
  refine ⟨⟨?_, ?_⟩, ?_, ?_⟩
  · intro b hb
    obtain ⟨x, hx, rfl⟩ := List.mem_map.mp hb
    rw [hid]
    exact hlt x hx
  · show ((db.bookings.map f).map (fun b => b.booking_id)).Nodup
    rw [map_preserves_booking_ids _ f hid]
    exact hnd
  · exact hrnd
  · intro r hr
    obtain ⟨b, hb, hbid, hbrn⟩ := hlink r hr
    exact ⟨f b, List.mem_map_of_mem f hb, by rw [hid]; exact hbid, by rw [hrn]; exact hbrn⟩

/-! ### Frame lemmas for the simple operations -/

/-- add_water_source touches only the sources table and its id counter. -/
theorem add_water_source_frame (db : DB) (n : String) (c : Int) (s e : Nat) (p : Int) :
    (add_water_source db n c s e p).1.time_slots = db.time_slots ∧
    (add_water_source db n c s e p).1.bookings = db.bookings ∧
    (add_water_source db n c s e p).1.receipts = db.receipts ∧
    (add_water_source db n c s e p).1.households = db.households ∧
    (add_water_source db n c s e p).1.next_booking_id = db.next_booking_id := by
  unfold add_water_source
  split <;> exact ⟨rfl, rfl, rfl, rfl, rfl⟩

/-- add_household touches only the households table and its id counter. -/
theorem add_household_frame (db : DB) (n p : String) (bal : Int) :
    (add_household db n p bal).1.time_slots = db.time_slots ∧
    (add_household db n p bal).1.bookings = db.bookings ∧
    (add_household db n p bal).1.receipts = db.receipts ∧
    (add_household db n p bal).1.next_booking_id = db.next_booking_id :=
  ⟨rfl, rfl, rfl, rfl⟩

/-- add_funds touches only the households table. -/
theorem add_funds_frame (db : DB) (hh : Nat) (amt : Int) :
    (add_funds db hh amt).time_slots = db.time_slots ∧
    (add_funds db hh amt).bookings = db.bookings ∧
    (add_funds db hh amt).receipts = db.receipts ∧
    (add_funds db hh amt).next_booking_id = db.next_booking_id := by
  unfold add_funds
  split <;> exact ⟨rfl, rfl, rfl, rfl⟩

/-- create_booking touches only the bookings table and its id counter. -/
theorem create_booking_tables (db : DB) (hh sid : Nat) (w c : Int) (pm : PaymentMethod)
    (today : Nat) :
    (create_booking db hh sid w c pm today).1.time_slots = db.time_slots ∧
    (create_booking db hh sid w c pm today).1.households = db.households ∧
    (create_booking db hh sid w c pm today).1.sources = db.sources ∧
    (create_booking db hh sid w c pm today).1.receipts = db.receipts := by
  unfold create_booking
  split
  · exact ⟨rfl, rfl, rfl, rfl⟩
  · split
    · exact ⟨rfl, rfl, rfl, rfl⟩
    · split
      · exact ⟨rfl, rfl, rfl, rfl⟩
      · split <;> exact ⟨rfl, rfl, rfl, rfl⟩

/-- generate_time_slots touches only the time_slots table and the slot id
counter. -/
theorem generate_time_slots_frame (db : DB) (sid d : Nat) :
    (generate_time_slots db sid d).1.bookings = db.bookings ∧
    (generate_time_slots db sid d).1.receipts = db.receipts ∧
    (generate_time_slots db sid d).1.households = db.households ∧
    (generate_time_slots db sid d).1.next_booking_id = db.next_booking_id := by
  rcases hfind : findSource db sid with _ | ws
  · simp [generate_time_slots, hfind]
  · by_cases hact : ws.status = SourceStatus.active
    · have hf := insertSlotsLoop_frame sid d ws.capacity_per_hour
        (slotTimes ws.operating_end_time ws.operating_start_time) db
      simp only [generate_time_slots, hfind]
      rw [if_pos hact]
      exact ⟨hf.2.2.1, hf.2.2.2.1, hf.2.1, hf.2.2.2.2.1⟩
    · simp [generate_time_slots, hfind, hact]

/-- review_deny touches only the bookings table, by an update that keeps
ids and receipt numbers. -/
theorem review_deny_shape (db : DB) (bid now : Nat) :
    (review_deny db bid now).1 = db ∨
    (review_deny db bid now).1 =
      { db with
          bookings := db.bookings.map (fun x =>
            if x.booking_id == bid then
              { x with booking_status := BookingStatus.denied, approval_date := some now }
            else x) } := by
  rcases hfb : findBooking db bid with _ | b
  · left
    simp [review_deny, hfb]
  · right
    simp [review_deny, hfb]

/-- cancel_booking touches only the bookings table, by an update that keeps
ids and receipt numbers. -/
theorem cancel_booking_shape (db : DB) (bid hh : Nat) :
    (cancel_booking db bid hh).1 = db ∨
    (cancel_booking db bid hh).1 =
      { db with
          bookings := db.bookings.map (fun x =>
            if x.booking_id == bid && x.household_id == hh then
              { x with booking_status := BookingStatus.cancelled }
            else x) } := by
  rcases hfb : db.bookings.find? (fun b => b.booking_id == bid && b.household_id == hh)
    with _ | b
  · left
    simp [cancel_booking, hfb]
  · by_cases hstat : b.booking_status = BookingStatus.pending ∨
      b.booking_status = BookingStatus.approved
    · right
      simp [cancel_booking, hfb, hstat]
    · left
      simp [cancel_booking, hfb, hstat]

/-- generate_time_slots only appends slots, all starting empty with
positive capacity. -/
theorem generate_time_slots_slots (db : DB) (sid d : Nat) :
    ∃ new, (generate_time_slots db sid d).1.time_slots = db.time_slots ++ new ∧
      ∀ x ∈ new, x.current_bookings = 0 ∧ 0 < x.max_households := by
  rcases hfind : findSource db sid with _ | ws
  · exact ⟨[], by simp [generate_time_slots, hfind], by simp⟩
  · by_cases hact : ws.status = SourceStatus.active
    · obtain ⟨new, hnew, hp⟩ := insertSlotsLoop_slots_append sid d ws.capacity_per_hour
        (slotTimes ws.operating_end_time ws.operating_start_time) db
      refine ⟨new, ?_, fun x hx => ⟨(hp x hx).2.2.1, (hp x hx).2.2.2⟩⟩
      simp only [generate_time_slots, hfind]
      rw [if_pos hact]
      exact hnew
    · exact ⟨[], by simp [generate_time_slots, hfind, hact], by simp⟩

/-! ### Preservation of the slot bounds invariant -/

/-- The approve transaction preserves the slot bounds: the increment is
guarded by the CHECK constraint, whose violation rolls the whole
transaction back. -/
theorem slotBounds_review_approve (db : DB) (bid now : Nat) (h : SlotBoundsInv db) :
    SlotBoundsInv (review_approve db bid now).1 := by
  rcases hfb : findBooking db bid with _ | b
  · exact slotBoundsInv_congr db _ (by simp [review_approve, hfb]) h
  · by_cases hc : (db.time_slots.any (fun s => s.slot_id == b.slot_id && slotWouldViolate s)) = true
    · exact slotBoundsInv_congr db _ (by simp [review_approve, hfb, hc]) h
    · have hslots : (review_approve db bid now).1.time_slots =
          db.time_slots.map (approveIncSlot b.slot_id) := by
        simp [review_approve, hfb, hc]
      intro s' hs'
      rw [hslots] at hs'
      obtain ⟨s, hs, rfl⟩ := List.mem_map.mp hs'
      by_cases hm : (s.slot_id == b.slot_id) = true
      · have hviol : slotWouldViolate s = false := by
          by_contra hbad
          rw [Bool.not_eq_false] at hbad
          exact hc (List.any_eq_true.mpr ⟨s, hs, by rw [hm, hbad]; rfl⟩)
        have hb1 := h s hs
        simp only [slotWouldViolate, Bool.or_eq_false_iff, decide_eq_false_iff_not,
          not_lt] at hviol
        simp only [approveIncSlot, hm, if_true]
        exact ⟨by omega, by omega⟩
      · simp only [approveIncSlot, hm, if_false]
        exact h s hs

/-- Every engine operation preserves the slot bounds invariant. -/
theorem slotBounds_applyOp (db : DB) (op : Op) (h : SlotBoundsInv db) :
    SlotBoundsInv (applyOp db op) := by
  cases op with
  | addSource n c s e p =>
      exact slotBoundsInv_congr db _ (add_water_source_frame db n c s e p).1 h
  | addHousehold n p bal =>
      exact slotBoundsInv_congr db _ (add_household_frame db n p bal).1 h
  | generateSlots sid d =>
      show SlotBoundsInv (generate_time_slots db sid d).1
      obtain ⟨new, hnew, hp⟩ := generate_time_slots_slots db sid d
      intro s hs
      rw [hnew] at hs
      rcases List.mem_append.mp hs with hs | hs
      · exact h s hs
      · obtain ⟨h0, hpos⟩ := hp s hs
        rw [h0]
        exact ⟨le_refl 0, le_of_lt hpos⟩
  | createBooking hh sid w c pm today =>
      exact slotBoundsInv_congr db _ (create_booking_tables db hh sid w c pm today).1 h
  | approveBooking bid now => exact slotBounds_review_approve db bid now h
  | denyBooking bid now =>
      show SlotBoundsInv (review_deny db bid now).1
      rcases review_deny_shape db bid now with hsh | hsh <;>
        exact slotBoundsInv_congr db _ (by rw [hsh]) h
  | cancelBooking bid hh =>
      show SlotBoundsInv (cancel_booking db bid hh).1
      rcases cancel_booking_shape db bid hh with hsh | hsh <;>
        exact slotBoundsInv_congr db _ (by rw [hsh]) h
  | deposit hh amt =>
      exact slotBoundsInv_congr db _ (add_funds_frame db hh amt).1 h

/-- Sequences of engine operations preserve the slot bounds invariant. -/
theorem slotBounds_applyOps (db : DB) (ops : List Op) (h : SlotBoundsInv db) :
    SlotBoundsInv (applyOps db ops) := by
  induction ops generalizing db with
  | nil => exact h
  | cons op rest ih => exact ih _ (slotBounds_applyOp db op h)

/-- Every operation other than an approve leaves all existing slot rows in
place unchanged. -/
theorem applyOp_slots_mem (db : DB) (op : Op)
    (hop : ∀ bid now, op ≠ Op.approveBooking bid now) :
    ∀ s ∈ db.time_slots, s ∈ (applyOp db op).time_slots := by
  intro s hs
  cases op with
  | addSource n c s' e p =>
      rw [show (applyOp db (Op.addSource n c s' e p)).time_slots = db.time_slots from
        (add_water_source_frame db n c s' e p).1]
      exact hs
  | addHousehold n p bal =>
      rw [show (applyOp db (Op.addHousehold n p bal)).time_slots = db.time_slots from
        (add_household_frame db n p bal).1]
      exact hs
  | generateSlots sid d =>
      show s ∈ (generate_time_slots db sid d).1.time_slots
      obtain ⟨new, hnew, -⟩ := generate_time_slots_slots db sid d
      rw [hnew]
      exact List.mem_append_left _ hs
  | createBooking hh sid w c pm today =>
      rw [show (applyOp db (Op.createBooking hh sid w c pm today)).time_slots = db.time_slots
        from (create_booking_tables db hh sid w c pm today).1]
      exact hs
  | approveBooking bid now => exact absurd rfl (hop bid now)
  | denyBooking bid now =>
      show s ∈ (review_deny db bid now).1.time_slots
      rcases review_deny_shape db bid now with hsh | hsh <;> rw [hsh] <;> exact hs
  | cancelBooking bid hh =>
      show s ∈ (cancel_booking db bid hh).1.time_slots
      rcases cancel_booking_shape db bid hh with hsh | hsh <;> rw [hsh] <;> exact hs
  | deposit hh amt =>
      rw [show (applyOp db (Op.deposit hh amt)).time_slots = db.time_slots from
        (add_funds_frame db hh amt).1]
      exact hs

/-! ### Preservation of the ledger invariant -/

/-- Appending one receipt with a fresh number, linked to a stored booking
number, preserves the ledger invariant. -/
theorem ledgerInv_append_receipt (db : DB) (r : Receipt)
    (hnotin : ∀ r' ∈ db.receipts, r'.receipt_number ≠ r.receipt_number)
    (hlinked : ∃ b ∈ db.bookings, b.booking_id = r.booking_id ∧
      b.receipt_number = some r.receipt_number)
    (h : LedgerInv db) : LedgerInv { db with receipts := db.receipts ++ [r] } := by
  obtain ⟨hids, hrnd, hlink⟩ := h
  refine ⟨hids, ?_, ?_⟩
  · show ((db.receipts ++ [r]).map (fun r => r.receipt_number)).Nodup
    rw [List.map_append, List.nodup_append]
    refine ⟨hrnd, by simp, ?_⟩
    intro a ha hb
    obtain ⟨x, hx, rfl⟩ := List.mem_map.mp ha
    simp only [List.map_cons, List.map_nil, List.mem_singleton] at hb
    exact hnotin x hx hb
  · intro r' hr'
    rcases List.mem_append.mp hr' with hr' | hr'
    · exact hlink r' hr'
    · have hre : r' = r := by simpa using hr'
      rw [hre]
      exact hlinked

/-- create_booking preserves the ledger invariant: the inserted booking has
a fresh id, and no receipt is touched. -/
theorem ledgerInv_create_booking (db : DB) (hh sid : Nat) (w c : Int) (pm : PaymentMethod)
    (today : Nat) (h : LedgerInv db) : LedgerInv (create_booking db hh sid w c pm today).1 := by
  unfold create_booking
  split
  · exact h
  · split
    · exact h
    · split
      · exact h
      · split
        · exact h
        · obtain ⟨⟨hlt, hnd⟩, hrnd, hlink⟩ := h
          refine ⟨⟨?_, ?_⟩, ?_, ?_⟩
          · intro b hb
            rcases List.mem_append.mp hb with hb | hb
            · exact Nat.lt_succ_of_lt (hlt b hb)
            · have hbeq : b = newBooking db.next_booking_id hh sid w c pm today := by
                simpa using hb
              rw [hbeq]
              exact Nat.lt_succ_self _
          · show (((db.bookings ++ [newBooking db.next_booking_id hh sid w c pm today]).map
              (fun b => b.booking_id))).Nodup
            rw [List.map_append, List.nodup_append]
            refine ⟨hnd, by simp, ?_⟩
            intro a ha hb
            obtain ⟨x, hx, rfl⟩ := List.mem_map.mp ha
            simp only [List.map_cons, List.map_nil, List.mem_singleton] at hb
            have := hlt x hx
            rw [hb] at this
            simp [newBooking] at this
          · exact hrnd
          · intro r hr
            obtain ⟨b, hb, h1, h2⟩ := hlink r hr
            exact ⟨b, List.mem_append_left _ hb, h1, h2⟩

/-- The status update of the approve transaction keeps the booking id. -/
theorem approveUpdateBooking_id (bid now : Nat) (x : Booking) :
    (approveUpdateBooking bid now x).booking_id = x.booking_id := by
  unfold approveUpdateBooking
  split <;> rfl

/-- The status update of the approve transaction keeps the receipt number. -/
theorem approveUpdateBooking_rn (bid now : Nat) (x : Booking) :
    (approveUpdateBooking bid now x).receipt_number = x.receipt_number := by
  unfold approveUpdateBooking
  split <;> rfl

/-- The receipt number update keeps the booking id. -/
theorem setBookingReceiptNumber_id (bid : Nat) (rn : Nat × Nat) (x : Booking) :
    (setBookingReceiptNumber bid rn x).booking_id = x.booking_id := by
  unfold setBookingReceiptNumber
  split <;> rfl

/-- The receipt number update leaves other bookings alone. -/
theorem setBookingReceiptNumber_skip (bid : Nat) (rn : Nat × Nat) (x : Booking)
    (h : x.booking_id ≠ bid) : setBookingReceiptNumber bid rn x = x := by
  unfold setBookingReceiptNumber
  rw [if_neg]
  simpa using h

/-- The receipt number update sets the number of the matching booking. -/
theorem setBookingReceiptNumber_hit (bid : Nat) (rn : Nat × Nat) (x : Booking)
    (h : x.booking_id = bid) :
    setBookingReceiptNumber bid rn x = { x with receipt_number := some rn } := by
  unfold setBookingReceiptNumber
  rw [if_pos]
  simpa using h

/-- The approve transaction preserves the ledger invariant: the receipt is
inserted only when its number is absent, and it carries the stored receipt
number of its booking. -/
theorem ledgerInv_review_approve (db : DB) (bid now : Nat) (h : LedgerInv db) :
    LedgerInv (review_approve db bid now).1 := by
  rcases hfb : findBooking db bid with _ | b
  · exact ledgerInv_congr db _ (by simp [review_approve, hfb]) (by simp [review_approve, hfb])
      (by simp [review_approve, hfb]) h
  · by_cases hc : (db.time_slots.any (fun s => s.slot_id == b.slot_id && slotWouldViolate s)) = true
    · exact ledgerInv_congr db _ (by simp [review_approve, hfb, hc])
        (by simp [review_approve, hfb, hc]) (by simp [review_approve, hfb, hc]) h
    · have hbmem : b ∈ db.bookings := List.mem_of_find?_eq_some (by simpa [findBooking] using hfb)
      have hbid : b.booking_id = bid := by
        have := List.find?_some (by simpa [findBooking] using hfb)
        simpa using this
      obtain ⟨⟨hlt, hnd⟩, hrnd, hlink⟩ := h
      have hinj : ∀ b1 ∈ db.bookings, ∀ b2 ∈ db.bookings,
          b1.booking_id = b2.booking_id → b1 = b2 := by
        intro b1 h1 b2 h2 he
        exact List.inj_on_of_nodup_map hnd h1 h2 he
      have hnext : (review_approve db bid now).1.next_booking_id = db.next_booking_id := by
        simp [review_approve, hfb, hc]
      rcases hrnb : b.receipt_number with _ | rn0
      · -- the booking had no stored number: it is set to (now, bid) first
        have hbk : (review_approve db bid now).1.bookings =
            (db.bookings.map (approveUpdateBooking bid now)).map
              (setBookingReceiptNumber bid (mkReceiptNumber now bid)) := by
          simp [review_approve, hfb, hc, hrnb]
        have hrcp : (review_approve db bid now).1.receipts =
            (if db.receipts.any (fun r => r.receipt_number == mkReceiptNumber now bid) then
              db.receipts
            else db.receipts ++
              [{ receipt_number := mkReceiptNumber now bid, household_id := b.household_id,
                 booking_id := bid, amount := b.amount_charged,
                 water_amount := b.water_amount_collected,
                 payment_method := b.payment_method }]) := by
          simp [review_approve, hfb, hc, hrnb]
        have holdlink : ∀ r' ∈ db.receipts,
            ∃ y ∈ (db.bookings.map (approveUpdateBooking bid now)).map
              (setBookingReceiptNumber bid (mkReceiptNumber now bid)),
              y.booking_id = r'.booking_id ∧ y.receipt_number = some r'.receipt_number := by
          intro r' hr'
          obtain ⟨b', hb', h1, h2⟩ := hlink r' hr'
          by_cases hbeq : b'.booking_id = bid
          · have hbe : b' = b := hinj b' hb' b hbmem (by rw [hbeq, hbid])
            rw [hbe, hrnb] at h2
            cases h2
          · refine ⟨setBookingReceiptNumber bid (mkReceiptNumber now bid)
              (approveUpdateBooking bid now b'),
              List.mem_map_of_mem _ (List.mem_map_of_mem _ hb'), ?_, ?_⟩
            · rw [setBookingReceiptNumber_id, approveUpdateBooking_id]
              exact h1
            · rw [setBookingReceiptNumber_skip _ _ _
                (by rw [approveUpdateBooking_id]; exact hbeq), approveUpdateBooking_rn]
              exact h2
        refine ⟨⟨?_, ?_⟩, ?_, ?_⟩
        · intro x hx
          rw [hbk] at hx
          rw [hnext]
          obtain ⟨y, hy, rfl⟩ := List.mem_map.mp hx
          obtain ⟨z, hz, rfl⟩ := List.mem_map.mp hy
          rw [setBookingReceiptNumber_id, approveUpdateBooking_id]
          exact hlt z hz
        · rw [hbk, map_preserves_booking_ids _ _ (setBookingReceiptNumber_id bid _),
            map_preserves_booking_ids _ _ (approveUpdateBooking_id bid now)]
          exact hnd
        · by_cases hex : (db.receipts.any
              (fun r => r.receipt_number == mkReceiptNumber now bid)) = true
          · rw [hrcp, if_pos hex]
            exact hrnd
          · rw [hrcp, if_neg hex, List.map_append, List.nodup_append]
            refine ⟨hrnd, by simp, ?_⟩
            intro a ha hb2
            obtain ⟨x, hx, rfl⟩ := List.mem_map.mp ha
            simp only [List.map_cons, List.map_nil, List.mem_singleton] at hb2
            exact hex (List.any_eq_true.mpr ⟨x, hx, by simpa using hb2⟩)
        · intro r hr
          rw [hrcp] at hr
          rw [hbk]
          by_cases hex : (db.receipts.any
              (fun r => r.receipt_number == mkReceiptNumber now bid)) = true
          · rw [if_pos hex] at hr
            exact holdlink r hr
          · rw [if_neg hex] at hr
            rcases List.mem_append.mp hr with hr | hr
            · exact holdlink r hr
            · have hre : r =
                  { receipt_number := mkReceiptNumber now bid,
                    household_id := b.household_id, booking_id := bid,
                    amount := b.amount_charged, water_amount := b.water_amount_collected,
                    payment_method := b.payment_method } := by simpa using hr
              refine ⟨setBookingReceiptNumber bid (mkReceiptNumber now bid)
                (approveUpdateBooking bid now b),
                List.mem_map_of_mem _ (List.mem_map_of_mem _ hbmem), ?_, ?_⟩
              · rw [setBookingReceiptNumber_id, approveUpdateBooking_id, hbid, hre]
              · rw [setBookingReceiptNumber_hit _ _ _
                  (by rw [approveUpdateBooking_id]; exact hbid), hre]
      · -- the booking already had a stored number rn0
        have hbk : (review_approve db bid now).1.bookings =
            db.bookings.map (approveUpdateBooking bid now) := by
          simp [review_approve, hfb, hc, hrnb]
        have hrcp : (review_approve db bid now).1.receipts =
            (if db.receipts.any (fun r => r.receipt_number == rn0) then db.receipts
            else db.receipts ++
              [{ receipt_number := rn0, household_id := b.household_id,
                 booking_id := bid, amount := b.amount_charged,
                 water_amount := b.water_amount_collected,
                 payment_method := b.payment_method }]) := by
          simp [review_approve, hfb, hc, hrnb]
        have holdlink : ∀ r' ∈ db.receipts,
            ∃ y ∈ db.bookings.map (approveUpdateBooking bid now),
              y.booking_id = r'.booking_id ∧ y.receipt_number = some r'.receipt_number := by
          intro r' hr'
          obtain ⟨b', hb', h1, h2⟩ := hlink r' hr'
          exact ⟨approveUpdateBooking bid now b', List.mem_map_of_mem _ hb',
            by rw [approveUpdateBooking_id]; exact h1,
            by rw [approveUpdateBooking_rn]; exact h2⟩
        refine ⟨⟨?_, ?_⟩, ?_, ?_⟩
        · intro x hx
          rw [hbk] at hx
          rw [hnext]
          obtain ⟨z, hz, rfl⟩ := List.mem_map.mp hx
          rw [approveUpdateBooking_id]
          exact hlt z hz
        · rw [hbk, map_preserves_booking_ids _ _ (approveUpdateBooking_id bid now)]
          exact hnd
        · by_cases hex : (db.receipts.any (fun r => r.receipt_number == rn0)) = true
          · rw [hrcp, if_pos hex]
            exact hrnd
          · rw [hrcp, if_neg hex, List.map_append, List.nodup_append]
            refine ⟨hrnd, by simp, ?_⟩
            intro a ha hb2
            obtain ⟨x, hx, rfl⟩ := List.mem_map.mp ha
            simp only [List.map_cons, List.map_nil, List.mem_singleton] at hb2
            exact hex (List.any_eq_true.mpr ⟨x, hx, by simpa using hb2⟩)
        · intro r hr
          rw [hrcp] at hr
          rw [hbk]
          by_cases hex : (db.receipts.any (fun r => r.receipt_number == rn0)) = true
          · rw [if_pos hex] at hr
            exact holdlink r hr
          · rw [if_neg hex] at hr
            rcases List.mem_append.mp hr with hr | hr
            · exact holdlink r hr
            · have hre : r =
                  { receipt_number := rn0, household_id := b.household_id,
                    booking_id := bid, amount := b.amount_charged,
                    water_amount := b.water_amount_collected,
                    payment_method := b.payment_method } := by simpa using hr
              refine ⟨approveUpdateBooking bid now b, List.mem_map_of_mem _ hbmem, ?_, ?_⟩
              · rw [approveUpdateBooking_id, hbid, hre]
              · rw [approveUpdateBooking_rn, hrnb, hre]

/-- Every engine operation preserves the ledger invariant. -/
theorem ledgerInv_applyOp (db : DB) (op : Op) (h : LedgerInv db) : LedgerInv (applyOp db op) := by
  cases op with
  | addSource n c s e p =>
      have hf := add_water_source_frame db n c s e p
      exact ledgerInv_congr db _ hf.2.1 hf.2.2.1 hf.2.2.2.2 h
  | addHousehold n p bal =>
      have hf := add_household_frame db n p bal
      exact ledgerInv_congr db _ hf.2.1 hf.2.2.1 hf.2.2.2 h
  | generateSlots sid d =>
      have hf := generate_time_slots_frame db sid d
      exact ledgerInv_congr db _ hf.1 hf.2.1 hf.2.2.2 h
  | createBooking hh sid w c pm today => exact ledgerInv_create_booking db hh sid w c pm today h
  | approveBooking bid now => exact ledgerInv_review_approve db bid now h
  | denyBooking bid now =>
      show LedgerInv (review_deny db bid now).1
      rcases review_deny_shape db bid now with hsh | hsh
      · rw [hsh]
        exact h
      · rw [hsh]
        exact ledgerInv_map_bookings db _ (fun x => by split <;> rfl)
          (fun x => by split <;> rfl) h
  | cancelBooking bid hh =>
      show LedgerInv (cancel_booking db bid hh).1
      rcases cancel_booking_shape db bid hh with hsh | hsh
      · rw [hsh]
        exact h
      · rw [hsh]
        exact ledgerInv_map_bookings db _ (fun x => by split <;> rfl)
          (fun x => by split <;> rfl) h
  | deposit hh amt =>
      have hf := add_funds_frame db hh amt
      exact ledgerInv_congr db _ hf.2.1 hf.2.2.1 hf.2.2.2 h

/-- Sequences of engine operations preserve the ledger invariant. -/
theorem ledgerInv_applyOps (db : DB) (ops : List Op) (h : LedgerInv db) :
    LedgerInv (applyOps db ops) := by
  induction ops generalizing db with
  | nil => exact h
  | cons op rest ih => exact ih _ (ledgerInv_applyOp db op h)

/-- The fresh database satisfies the ledger invariant. -/
theorem ledgerInv_initDB : LedgerInv initDB := by
  refine ⟨⟨?_, ?_⟩, ?_, ?_⟩ <;> simp [initDB, BookingIdsInv]

/-- The fresh database satisfies the slot bounds invariant. -/
theorem slotBounds_initDB : SlotBoundsInv initDB := by
  intro s hs
  simp [initDB] at hs

/-- A list whose projection under f is duplicate-free, and on which the
predicate forces a single projected value, has at most one member
satisfying the predicate. -/
theorem countP_le_one_of_nodup_map {α β : Type} (f : α → β) (p : α → Bool) (c : β) :
    ∀ (l : List α), (l.map f).Nodup → (∀ x ∈ l, p x = true → f x = c) →
      l.countP p ≤ 1
  | [], _, _ => by simp
  | a :: t, hn, hc => by
    have hn' : f a ∉ t.map f ∧ (t.map f).Nodup := by
      rw [List.map_cons, List.nodup_cons] at hn
      exact hn
    rw [List.countP_cons]
    by_cases hpa : p a = true
    · have h0 : t.countP p = 0 := by
        rw [List.countP_eq_zero]
        intro x hx hpx
        have hfx : f x = c := hc x (List.mem_cons_of_mem _ hx) hpx
        have hfa : f a = c := hc a (List.mem_cons_self _ _) hpa
        exact hn'.1 (by rw [hfa, ← hfx]; exact List.mem_map_of_mem f hx)
      rw [h0, hpa]
      simp
    · have hrec := countP_le_one_of_nodup_map f p c t hn'.2
        (fun x hx hp => hc x (List.mem_cons_of_mem _ hx) hp)
      have hz : (if p a = true then 1 else 0) = 0 := by
        simp [hpa]
      rw [hz]
      omega

/-! ## Further helper lemmas for the booking ledger -/

/-- create_booking fails without touching the store when a booking for the
same (household, slot) pair already exists: the UNIQUE constraint. -/
theorem create_booking_dup (db : DB) (hh sid : Nat) (w c : Int) (pm : PaymentMethod)
    (today : Nat)
    (hdup : (db.bookings.any (fun b => b.household_id == hh && b.slot_id == sid)) = true) :
    create_booking db hh sid w c pm today = (db, none) := by
  unfold create_booking
  rw [if_pos hdup]

/-- A successful create_booking call appended exactly the fresh pending
booking and returned the fresh id. -/
theorem create_booking_success_shape (db : DB) (hh sid : Nat) (w c : Int) (pm : PaymentMethod)
    (today bid : Nat) (hsucc : (create_booking db hh sid w c pm today).2 = some bid) :
    create_booking db hh sid w c pm today =
      ({ db with
          bookings := db.bookings ++ [newBooking db.next_booking_id hh sid w c pm today]
          next_booking_id := db.next_booking_id + 1 }, some db.next_booking_id) ∧
    bid = db.next_booking_id := by
  unfold create_booking at hsucc ⊢
  split at hsucc
  · cases hsucc
  · split at hsucc
    · cases hsucc
    · split at hsucc
      · cases hsucc
      · split at hsucc
        · cases hsucc
        · rename_i h1 h2 h3 h4
          rw [if_neg h1, if_neg h2, if_neg h3, if_neg h4]
          exact ⟨rfl, by simpa using hsucc.symm⟩

/-! ## Concrete stores used to witness the theorems -/

/-- The Well-A source: operating window 08:00 to 11:00 (480 to 660
minutes), capacity 5 per hour, price 5 cents per 100L. -/
def demoSourceA : WaterSource :=
  { source_id := 1, source_name := ("Well-A"), capacity_per_hour := 5,
    operating_start_time := 480, operating_end_time := 660,
    status := SourceStatus.active, price_per_100L := 5, priority_access := ("all") }

def demo0 : DB := (add_water_source initDB ("Well-A") 5 480 660 5).1

def demo1 : DB := (add_household demo0 ("Mutoni") ("normal") 5000).1

def demoGen : DB := (generate_time_slots demo1 1 7).1

/-- Household 1 requests 200L on slot 1 for 10 cents by mobile payment. -/
def demoDB : DB := (create_booking demoGen 1 1 200 10 PaymentMethod.mobile 7).1

/-- The first generated slot of Well-A. -/
def demoSlotA : TimeSlot :=
  { slot_id := 1, source_id := 1, slot_date := 7, start_time := 480, end_time := 540,
    max_households := 5, current_bookings := 0, status := SlotStatus.available }

def demoCap0 : DB := (add_water_source initDB ("Tap-B") 1 480 600 5).1

def demoCap1 : DB := (add_household demoCap0 ("Abena") ("normal") 2000).1

def demoCap2 : DB := (add_household demoCap1 ("Chiedza") ("low") 2000).1

def demoCap3 : DB := (generate_time_slots demoCap2 1 7).1

def demoCap4 : DB := (create_booking demoCap3 1 1 100 5 PaymentMethod.mobile 7).1

def demoCap5 : DB := (create_booking demoCap4 2 1 100 5 PaymentMethod.cash 7).1

/-- Two pending bookings race for a slot of capacity 1; the first is
approved, filling the slot. -/
def demoCap : DB := (review_approve demoCap5 1 8).1

/-- The second, still pending booking on the now full slot. -/
def demoCapBooking2 : Booking :=
  { booking_id := 2, household_id := 2, slot_id := 1,
    booking_status := BookingStatus.pending, collection_status := CollectionStatus.pending,
    water_amount_collected := 100, amount_charged := 5, approval_date := none,
    receipt_number := some (7, 2), payment_method := PaymentMethod.cash }

/-- The full slot: 1 of 1 booked. -/
def demoCapSlot1 : TimeSlot :=
  { slot_id := 1, source_id := 1, slot_date := 7, start_time := 480, end_time := 540,
    max_households := 1, current_bookings := 1, status := SlotStatus.available }

/-- Household 1 cancels its booking for slot 1. -/
def demoCancelled : DB := (cancel_booking demoDB 1 1).1

/-- The cancelled booking row, still occupying the (household, slot) pair. -/
def demoCancelledBooking : Booking :=
  { booking_id := 1, household_id := 1, slot_id := 1,
    booking_status := BookingStatus.cancelled, collection_status := CollectionStatus.pending,
    water_amount_collected := 200, amount_charged := 10, approval_date := none,
    receipt_number := some (7, 1), payment_method := PaymentMethod.mobile }

/-- Two sources for the availability query: Alpha restricted to the high
and normal tiers, Beta open to all. -/
def demoSourceAlpha : WaterSource :=
  { source_id := 1, source_name := ("Alpha"), capacity_per_hour := 5,
    operating_start_time := 480, operating_end_time := 660,
    status := SourceStatus.active, price_per_100L := 5,
    priority_access := ("high,normal") }

def demoSourceBeta : WaterSource :=
  { source_id := 2, source_name := ("Beta"), capacity_per_hour := 5,
    operating_start_time := 480, operating_end_time := 660,
    status := SourceStatus.active, price_per_100L := 5, priority_access := ("all") }

def demoSlotAlpha : TimeSlot :=
  { slot_id := 1, source_id := 1, slot_date := 7, start_time := 480, end_time := 540,
    max_households := 5, current_bookings := 0, status := SlotStatus.available }

def demoSlotBeta : TimeSlot :=
  { slot_id := 2, source_id := 2, slot_date := 7, start_time := 480, end_time := 540,
    max_households := 5, current_bookings := 0, status := SlotStatus.available }

def demoAvailDB : DB :=
  { sources := [demoSourceAlpha, demoSourceBeta],
    time_slots := [demoSlotAlpha, demoSlotBeta],
    households := [], bookings := [], receipts := [],
    next_source_id := 3, next_slot_id := 3, next_household_id := 1, next_booking_id := 1 }

/-- Characterization of the rows produced by the availability filter. -/
theorem availRowOf_eq_some_iff (db : DB) (date : Nat) (tier : String) (ts : TimeSlot)
    (r : AvailableSlotRow) :
    availRowOf db date tier ts = some r ↔
      ∃ ws, findSource db ts.source_id = some ws ∧ ts.slot_date = date ∧
        ts.status = SlotStatus.available ∧ ts.current_bookings < ts.max_households ∧
        ws.status = SourceStatus.active ∧
        (ws.priority_access = ("all" : String) ∨ likeContains ws.priority_access tier = true) ∧
        r = rowOf ts ws := by
  rcases hws : findSource db ts.source_id with _ | ws
  · simp [availRowOf, hws]
  · simp only [availRowOf, hws]
    constructor
    · intro hf
      split at hf
      · rename_i hcond
        simp only [Bool.and_eq_true, Bool.or_eq_true, beq_iff_eq, decide_eq_true_eq] at hcond
        exact ⟨ws, rfl, hcond.1.1.1.1, hcond.1.1.1.2, hcond.1.1.2, hcond.1.2, hcond.2,
          (Option.some_inj.mp hf).symm⟩
      · cases hf
    · rintro ⟨ws', hws', h1, h2, h3, h4, h5, rfl⟩
      have hwe : ws = ws' := Option.some_inj.mp hws'
      subst hwe
      rw [if_pos]
      simp only [Bool.and_eq_true, Bool.or_eq_true, beq_iff_eq, decide_eq_true_eq]
      exact ⟨⟨⟨⟨h1, h2⟩, h3⟩, h4⟩, h5⟩

/-! ## The claims -/

/-- C1: the spec requires approval to be guarded by the precondition
booking_status = pending, so that repeating an approve neither debits the
balance nor increments the slot counter a second time. The code has no
such guard: the UPDATE in review_bookings matches on booking_id alone.
Evaluating the approve transaction twice on booking 1 (mobile payment,
charge 10 cents, slot 1 of capacity 5): after the first approve the
booking is approved, the slot counter is 1 and the balance 4990; the
second approve succeeds again, driving the counter to 2 and the balance to
4980 — the balance and counter change twice, not once. Only the receipt
insert is idempotent (still one receipt). -/
theorem approve_twice_double_debits :
    ((review_approve demoDB 1 8).1.bookings.map (fun b => b.booking_status) =
      [BookingStatus.approved]) ∧
    ((review_approve demoDB 1 8).1.time_slots.map (fun s => s.current_bookings) = [1, 0, 0]) ∧
    ((review_approve demoDB 1 8).1.households.map (fun h => h.balance) = [4990]) ∧
    ((review_approve (review_approve demoDB 1 8).1 1 9).2 = ReviewOutcome.ok) ∧
    ((review_approve (review_approve demoDB 1 8).1 1 9).1.time_slots.map
      (fun s => s.current_bookings) = [2, 0, 0]) ∧
    ((review_approve (review_approve demoDB 1 8).1 1 9).1.households.map
      (fun h => h.balance) = [4980]) ∧
    ((review_approve (review_approve demoDB 1 8).1 1 9).1.receipts.length = 1) := by
  decide

/-- C2: approving any booking whose slot is already at capacity
(booked_units = max_units) is refused — the CHECK constraint on the
increment aborts the transaction, surfaced as the CapacityExceeded
failure — and the whole state is returned unchanged: the booking keeps its
status, the counter is not incremented, no balance debit and no receipt
occurs. Capacity is re-validated at commit time and the transaction never
applies partially. -/
theorem approve_at_capacity_refused (db : DB) (bid now : Nat) (b : Booking) (s : TimeSlot)
    (hb : findBooking db bid = some b) (hs : s ∈ db.time_slots) (hsid : s.slot_id = b.slot_id)
    (hfull : s.current_bookings = s.max_households) :
    review_approve db bid now = (db, ReviewOutcome.capacityExceeded) := by
  have hany : (db.time_slots.any (fun s => s.slot_id == b.slot_id && slotWouldViolate s))
      = true := by
    refine List.any_eq_true.mpr ⟨s, hs, ?_⟩
    have h1 : (s.slot_id == b.slot_id) = true := by simpa using hsid
    have hlt : s.max_households < s.current_bookings + 1 := by omega
    have h2 : slotWouldViolate s = true := by simp [slotWouldViolate, hlt]
    rw [h1, h2]
    rfl
  simp [review_approve, hb, hany]

/-- Witness for C2: the second pending booking on the full slot of demoCap
is refused with no state change. -/
theorem approve_at_capacity_refused_witness :
    review_approve demoCap 2 9 = (demoCap, ReviewOutcome.capacityExceeded) :=
  approve_at_capacity_refused demoCap 2 9 demoCapBooking2 demoCapSlot1
    (by decide) (by decide) (by decide) (by decide)

/-- C3: from any store satisfying it (in particular from the fresh one),
every sequence of engine operations preserves
0 <= booked_units <= max_units for every slot; and every operation other
than an approve leaves each existing slot row in place unchanged, so the
approve transaction is the only operation that changes a booking counter,
and (first conjunct, which covers approves) it never drives the counter
out of bounds. -/
theorem slot_capacity_invariant :
    (∀ (db : DB) (ops : List Op), SlotBoundsInv db → SlotBoundsInv (applyOps db ops)) ∧
    (∀ ops : List Op, SlotBoundsInv (runOps ops)) ∧
    (∀ (db : DB) (op : Op), (∀ bid now, op ≠ Op.approveBooking bid now) →
      ∀ s ∈ db.time_slots, s ∈ (applyOp db op).time_slots) :=
  ⟨fun db ops h => slotBounds_applyOps db ops h,
   fun ops => slotBounds_applyOps initDB ops slotBounds_initDB,
   fun db op hop => applyOp_slots_mem db op hop⟩

/-- Witness for C3 at a concrete store, operation sequence and slot. -/
theorem slot_capacity_invariant_witness :
    SlotBoundsInv (applyOps demoDB [Op.approveBooking 1 8, Op.deposit 1 100]) ∧
    SlotBoundsInv (runOps []) ∧
    demoSlotA ∈ (applyOp demoDB (Op.deposit 1 100)).time_slots :=
  ⟨slot_capacity_invariant.1 demoDB [Op.approveBooking 1 8, Op.deposit 1 100] (by decide),
   slot_capacity_invariant.2.1 [],
   slot_capacity_invariant.2.2 demoDB (Op.deposit 1 100)
     (fun bid now h => Op.noConfusion h) demoSlotA (by decide)⟩

/-- C4: for a household and slot with no prior booking for the pair (and a
valid request), the first create succeeds, returns the fresh booking id
and appends exactly one booking; the second create for the same pair fails
with the uniqueness violation (DuplicateBooking) and changes nothing — it
neither overwrites the first booking nor double-inserts. -/
theorem duplicate_booking_rejected (db : DB) (hh sid : Nat) (w c w2 c2 : Int)
    (pm pm2 : PaymentMethod) (today today2 : Nat)
    (hnodup : ∀ b ∈ db.bookings, ¬(b.household_id = hh ∧ b.slot_id = sid))
    (hslot : ∃ s ∈ db.time_slots, s.slot_id = sid)
    (hhouse : ∃ hc ∈ db.households, hc.household_id = hh)
    (hwater : 0 < w) :
    (create_booking db hh sid w c pm today).2 = some db.next_booking_id ∧
    (create_booking db hh sid w c pm today).1.bookings =
      db.bookings ++ [newBooking db.next_booking_id hh sid w c pm today] ∧
    create_booking (create_booking db hh sid w c pm today).1 hh sid w2 c2 pm2 today2 =
      ((create_booking db hh sid w c pm today).1, none) := by
  have hd : (db.bookings.any (fun b => b.household_id == hh && b.slot_id == sid)) = false := by
    rw [Bool.eq_false_iff]
    intro hbad
    obtain ⟨b, hb, hm⟩ := List.any_eq_true.mp hbad
    simp only [Bool.and_eq_true, beq_iff_eq] at hm
    exact hnodup b hb hm
  have hsl : (db.time_slots.any (fun s => s.slot_id == sid)) = true := by
    obtain ⟨s, hs, he⟩ := hslot
    exact List.any_eq_true.mpr ⟨s, hs, by simpa using he⟩
  have hho : (db.households.any (fun h => h.household_id == hh)) = true := by
    obtain ⟨x, hx, he⟩ := hhouse
    exact List.any_eq_true.mpr ⟨x, hx, by simpa using he⟩
  have hw : ¬(w ≤ 0) := by omega
  have h1 : create_booking db hh sid w c pm today =
      ({ db with
          bookings := db.bookings ++ [newBooking db.next_booking_id hh sid w c pm today]
          next_booking_id := db.next_booking_id + 1 }, some db.next_booking_id) := by
    unfold create_booking
    rw [if_neg (by simp [hd]), if_neg (by simp [hsl]), if_neg (by simp [hho]), if_neg hw]
  refine ⟨by rw [h1], by rw [h1], ?_⟩
  have hmem : newBooking db.next_booking_id hh sid w c pm today ∈
      (create_booking db hh sid w c pm today).1.bookings := by
    rw [h1]
    exact List.mem_append_right _ (by simp)
  refine create_booking_dup _ hh sid w2 c2 pm2 today2 ?_
  refine List.any_eq_true.mpr ⟨_, hmem, ?_⟩
  simp [newBooking]

/-- Witness for C4: household 1 books slot 1 of the fresh Well-A store,
then tries again. -/
theorem duplicate_booking_rejected_witness :
    (create_booking demoGen 1 1 200 10 PaymentMethod.mobile 7).2 = some demoGen.next_booking_id ∧
    (create_booking demoGen 1 1 200 10 PaymentMethod.mobile 7).1.bookings =
      demoGen.bookings ++ [newBooking demoGen.next_booking_id 1 1 200 10 PaymentMethod.mobile 7] ∧
    create_booking (create_booking demoGen 1 1 200 10 PaymentMethod.mobile 7).1
        1 1 300 15 PaymentMethod.cash 8 =
      ((create_booking demoGen 1 1 200 10 PaymentMethod.mobile 7).1, none) :=
  duplicate_booking_rejected demoGen 1 1 200 10 300 15 PaymentMethod.mobile PaymentMethod.cash
    7 8 (by decide) (by decide) (by decide) (by decide)

/-- C5: every successful create_booking call appends one booking in status
pending and changes nothing else: the slots (in particular booked_units),
the households (in particular the balance), the sources and the receipts
are exactly as before — capacity and funds are committed only at
approval. -/
theorem create_pending_frame (db : DB) (hh sid : Nat) (w c : Int) (pm : PaymentMethod)
    (today bid : Nat) (hsucc : (create_booking db hh sid w c pm today).2 = some bid) :
    (create_booking db hh sid w c pm today).1.time_slots = db.time_slots ∧
    (create_booking db hh sid w c pm today).1.households = db.households ∧
    (create_booking db hh sid w c pm today).1.sources = db.sources ∧
    (create_booking db hh sid w c pm today).1.receipts = db.receipts ∧
    (create_booking db hh sid w c pm today).1.bookings =
      db.bookings ++ [newBooking bid hh sid w c pm today] ∧
    (newBooking bid hh sid w c pm today).booking_status = BookingStatus.pending := by
  obtain ⟨hsh, hbid⟩ := create_booking_success_shape db hh sid w c pm today bid hsucc
  rw [hbid]
  exact ⟨by rw [hsh], by rw [hsh], by rw [hsh], by rw [hsh], by rw [hsh], rfl⟩

/-- Witness for C5 at the concrete store demoGen. -/
theorem create_pending_frame_witness :
    (create_booking demoGen 1 1 200 10 PaymentMethod.mobile 7).1.time_slots =
      demoGen.time_slots ∧
    (create_booking demoGen 1 1 200 10 PaymentMethod.mobile 7).1.households =
      demoGen.households ∧
    (create_booking demoGen 1 1 200 10 PaymentMethod.mobile 7).1.sources = demoGen.sources ∧
    (create_booking demoGen 1 1 200 10 PaymentMethod.mobile 7).1.receipts = demoGen.receipts ∧
    (create_booking demoGen 1 1 200 10 PaymentMethod.mobile 7).1.bookings =
      demoGen.bookings ++ [newBooking 1 1 1 200 10 PaymentMethod.mobile 7] ∧
    (newBooking 1 1 1 200 10 PaymentMethod.mobile 7).booking_status = BookingStatus.pending :=
  create_pending_frame demoGen 1 1 200 10 PaymentMethod.mobile 7 1 (by decide)

/-- C6: generating slots a second time for the same source and date
creates nothing: the count is 0 and the store, slots included, is exactly
the one after the first call; moreover the first call keeps every
pre-existing slot row in place unchanged (booked_units and status are not
reset). -/
theorem generate_slots_idempotent (db : DB) (sid d : Nat) :
    (generate_time_slots (generate_time_slots db sid d).1 sid d).2 = 0 ∧
    (generate_time_slots (generate_time_slots db sid d).1 sid d).1 =
      (generate_time_slots db sid d).1 ∧
    ∀ s ∈ db.time_slots, s ∈ (generate_time_slots db sid d).1.time_slots := by
  rcases hfind : findSource db sid with _ | ws
  · have hgen : generate_time_slots db sid d = (db, 0) := by
      simp [generate_time_slots, hfind]
    refine ⟨?_, ?_, ?_⟩
    · rw [hgen]
      simp [generate_time_slots, hfind]
    · rw [hgen]
      simp [generate_time_slots, hfind]
    · intro s hs
      rw [hgen]
      exact hs
  · by_cases hact : ws.status = SourceStatus.active
    · have hgen : generate_time_slots db sid d =
          insertSlotsLoop sid d ws.capacity_per_hour db
            (slotTimes ws.operating_end_time ws.operating_start_time) := by
        simp only [generate_time_slots, hfind]
        rw [if_pos hact]
      have houter : ∀ db1 : DB, findSource db1 sid = some ws →
          insertSlotsLoop sid d ws.capacity_per_hour db1
            (slotTimes ws.operating_end_time ws.operating_start_time) = (db1, 0) →
          generate_time_slots db1 sid d = (db1, 0) := by
        intro db1 hf1 hn1
        simp only [generate_time_slots, hf1]
        rw [if_pos hact]
        exact hn1
      have hsrc : (generate_time_slots db sid d).1.sources = db.sources := by
        rw [hgen]
        exact (insertSlotsLoop_frame sid d ws.capacity_per_hour _ db).1
      have hfind1 : findSource (generate_time_slots db sid d).1 sid = some ws := by
        rw [findSource_congr db _ hsrc, hfind]
      have hnoop : insertSlotsLoop sid d ws.capacity_per_hour (generate_time_slots db sid d).1
          (slotTimes ws.operating_end_time ws.operating_start_time) =
          ((generate_time_slots db sid d).1, 0) := by
        refine insertSlotsLoop_noop sid d ws.capacity_per_hour _ _ ?_
        intro st en hm hok
        rw [hgen]
        exact insertSlotsLoop_key_present sid d ws.capacity_per_hour _ db st en hm hok
      have houter1 := houter (generate_time_slots db sid d).1 hfind1 hnoop
      refine ⟨by rw [houter1], by rw [houter1], ?_⟩
      intro s hs
      rw [hgen]
      exact insertSlotsLoop_mem sid d ws.capacity_per_hour _ db s hs
    · have hgen : generate_time_slots db sid d = (db, 0) := by
        simp [generate_time_slots, hfind, hact]
      refine ⟨?_, ?_, ?_⟩
      · rw [hgen]
        simp [generate_time_slots, hfind, hact]
      · rw [hgen]
        simp [generate_time_slots, hfind, hact]
      · intro s hs
        rw [hgen]
        exact hs

/-- Witness for C6 at the populated Well-A store. -/
theorem generate_slots_idempotent_witness :
    (generate_time_slots (generate_time_slots demo1 1 7).1 1 7).2 = 0 ∧
    (generate_time_slots (generate_time_slots demo1 1 7).1 1 7).1 =
      (generate_time_slots demo1 1 7).1 ∧
    demoSlotA ∈ (generate_time_slots demoGen 1 7).1.time_slots :=
  ⟨(generate_slots_idempotent demo1 1 7).1, (generate_slots_idempotent demo1 1 7).2.1,
   (generate_slots_idempotent demoGen 1 7).2.2 demoSlotA (by decide)⟩

/-- C7: for an active source with operating window [start, end) and
positive capacity cap, and a store holding no slot yet for that source and
date, generate_time_slots returns (end - start) / 60 as the count of
created slots and appends exactly the consecutive one-hour slots
(start + 60k, start + 60k + 60) for k below the count, each with
max_households = cap; no slot reaches past the window end, and a remainder
shorter than one hour is not emitted (the count is the floor of the
window length in hours: the 08:00 to 11:00 window yields exactly 3). -/
theorem generate_slots_tiling (db : DB) (sid d : Nat) (ws : WaterSource)
    (hfind : findSource db sid = some ws) (hact : ws.status = SourceStatus.active)
    (hcap : 0 < ws.capacity_per_hour)
    (hfresh : ∀ s ∈ db.time_slots, ¬(s.source_id = sid ∧ s.slot_date = d)) :
    (generate_time_slots db sid d).2 =
      (ws.operating_end_time - ws.operating_start_time) / 60 ∧
    ∃ new, (generate_time_slots db sid d).1.time_slots = db.time_slots ++ new ∧
      new.map (fun s => (s.start_time, s.end_time, s.max_households)) =
        (List.range ((ws.operating_end_time - ws.operating_start_time) / 60)).map
          (fun k => (ws.operating_start_time + 60 * k,
                     ws.operating_start_time + 60 * k + 60, ws.capacity_per_hour)) ∧
      ∀ s ∈ new, s.end_time ≤ ws.operating_end_time := by
  have hgen : generate_time_slots db sid d =
      insertSlotsLoop sid d ws.capacity_per_hour db
        (slotTimes ws.operating_end_time ws.operating_start_time) := by
    simp only [generate_time_slots, hfind]
    rw [if_pos hact]
  have hleq := slotTimes_eq ws.operating_end_time ws.operating_start_time
  have hlen : (slotTimes ws.operating_end_time ws.operating_start_time).length =
      (ws.operating_end_time - ws.operating_start_time) / 60 := by
    rw [hleq]
    simp
  have hlt : ∀ p ∈ slotTimes ws.operating_end_time ws.operating_start_time, p.1 < p.2 := by
    rw [hleq]
    intro p hp
    obtain ⟨k, -, hpk⟩ := List.mem_map.mp hp
    rw [← hpk]
    omega
  have hfresh2 : ∀ s ∈ db.time_slots, s.source_id = sid → s.slot_date = d →
      ∀ p ∈ slotTimes ws.operating_end_time ws.operating_start_time, s.start_time ≠ p.1 := by
    intro s hs h1 h2 p hp
    exact absurd ⟨h1, h2⟩ (hfresh s hs)
  have hpw : (slotTimes ws.operating_end_time ws.operating_start_time).Pairwise
      (fun a b => a.1 ≠ b.1) := by
    rw [hleq]
    refine List.Pairwise.map _ ?_ (List.pairwise_lt_range _)
    intro a b hab
    simp only []
    omega
  obtain ⟨hcnt, new, hnew, hmap⟩ := insertSlotsLoop_fresh sid d ws.capacity_per_hour hcap
    (slotTimes ws.operating_end_time ws.operating_start_time) db hlt hfresh2 hpw
  refine ⟨by rw [hgen, hcnt, hlen], new, by rw [hgen]; exact hnew, ?_, ?_⟩
  · rw [hmap, hleq, List.map_map]
    rfl
  · intro s hs
    have hin : (s.start_time, s.end_time, s.max_households) ∈
        new.map (fun s => (s.start_time, s.end_time, s.max_households)) :=
      List.mem_map_of_mem _ hs
    rw [hmap, hleq, List.map_map] at hin
    obtain ⟨k, hk, hpk⟩ := List.mem_map.mp hin
    have hkn : k < (ws.operating_end_time - ws.operating_start_time) / 60 :=
      List.mem_range.mp hk
    have hen : s.end_time = ws.operating_start_time + 60 * k + 60 := by
      have := congrArg (fun q => q.2.1) hpk
      simpa using this.symm
    have hkk : (k + 1) * 60 ≤ ws.operating_end_time - ws.operating_start_time :=
      (Nat.le_div_iff_mul_le (by norm_num)).mp (by omega)
    omega

/-- Witness for C7: Well-A operating 08:00 to 11:00 yields 3 slots on the
fresh store. -/
theorem generate_slots_tiling_witness : (generate_time_slots demo1 1 7).2 = 3 := by
  have h := generate_slots_tiling demo1 1 7 demoSourceA (by decide) (by decide)
    (by decide) (by decide)
  have h2 := h.1
  simp only [demoSourceA] at h2
  exact h2

/-- C8: the availability query returns exactly the rows of the slots
satisfying the four conditions — slot status available, booked below
capacity, parent source active, and a priority rule that is the string all
or admits the requester tier — for the requested date, ordered by source
name and then slot start time; it is a pure function of the store, so it
has no side effects. In particular a low-tier requester never sees a row
of a source whose rule is the string high,normal. -/
theorem available_slots_spec (db : DB) (date : Nat) (tier : String) :
    (∀ r, r ∈ get_available_slots db date tier ↔
      ∃ ts ∈ db.time_slots, ∃ ws, findSource db ts.source_id = some ws ∧
        ts.slot_date = date ∧ ts.status = SlotStatus.available ∧
        ts.current_bookings < ts.max_households ∧ ws.status = SourceStatus.active ∧
        (ws.priority_access = ("all" : String) ∨ likeContains ws.priority_access tier = true) ∧
        r = rowOf ts ws) ∧
    (get_available_slots db date tier).Sorted availRowLE ∧
    (tier = ("low" : String) → ∀ r ∈ get_available_slots db date tier,
      r.priority_access ≠ ("high,normal" : String)) := by
  have hmem : ∀ r, r ∈ get_available_slots db date tier ↔
      ∃ ts ∈ db.time_slots, availRowOf db date tier ts = some r := by
    intro r
    unfold get_available_slots
    rw [(List.perm_insertionSort availRowLE _).mem_iff, List.mem_filterMap]
  refine ⟨?_, ?_, ?_⟩
  · intro r
    rw [hmem r]
    constructor
    · rintro ⟨ts, hts, hf⟩
      obtain ⟨ws, hws, h1, h2, h3, h4, h5, rfl⟩ :=
        (availRowOf_eq_some_iff db date tier ts r).mp hf
      exact ⟨ts, hts, ws, hws, h1, h2, h3, h4, h5, rfl⟩
    · rintro ⟨ts, hts, ws, hws, h1, h2, h3, h4, h5, rfl⟩
      exact ⟨ts, hts, (availRowOf_eq_some_iff db date tier ts _).mpr
        ⟨ws, hws, h1, h2, h3, h4, h5, rfl⟩⟩
  · unfold get_available_slots
    exact List.sorted_insertionSort availRowLE _
  · intro htier r hr
    rw [hmem r] at hr
    obtain ⟨ts, hts, hf⟩ := hr
    obtain ⟨ws, hws, h1, h2, h3, h4, h5, rfl⟩ :=
      (availRowOf_eq_some_iff db date tier ts r).mp hf
    intro hcontra
    have hpa : ws.priority_access = ("high,normal" : String) := hcontra
    rcases h5 with h5 | h5
    · rw [hpa] at h5
      exact absurd h5 (by decide)
    · rw [hpa, htier] at h5
      exact absurd h5 (by decide)

/-- Witness for C8: on the two-source store, the query for the low tier is
sorted and every returned row (here the Beta row) avoids the restricted
rule. -/
theorem available_slots_spec_witness :
    (get_available_slots demoAvailDB 7 ("low")).Sorted availRowLE ∧
    (rowOf demoSlotBeta demoSourceBeta).priority_access ≠ ("high,normal" : String) := by
  have h := available_slots_spec demoAvailDB 7 ("low")
  exact ⟨h.2.1, h.2.2 rfl (rowOf demoSlotBeta demoSourceBeta) (by decide)⟩

/-- C9: in every state reachable by engine operations from the fresh
database, every booking has at most one receipt: the approve transaction
inserts a receipt only when none with the stored receipt number of the
booking exists yet, so repeating or retrying an approval never produces a
second receipt for the same booking. -/
theorem receipt_unique_per_booking (ops : List Op) (bid : Nat) :
    ((runOps ops).receipts.countP (fun r => r.booking_id == bid)) ≤ 1 := by
  have hInv : LedgerInv (runOps ops) := ledgerInv_applyOps initDB ops ledgerInv_initDB
  obtain ⟨⟨hlt, hnd⟩, hrnd, hlink⟩ := hInv
  by_cases hb : ∃ b ∈ (runOps ops).bookings, b.booking_id = bid
  · obtain ⟨b0, hb0, hbid0⟩ := hb
    rcases hrn0 : b0.receipt_number with _ | n0
    · have h0 : ((runOps ops).receipts.countP (fun r => r.booking_id == bid)) = 0 := by
        rw [List.countP_eq_zero]
        intro r hr hpr
        obtain ⟨b', hb', h1, h2⟩ := hlink r hr
        have hrb : r.booking_id = bid := by simpa using hpr
        have hbb : b' = b0 := List.inj_on_of_nodup_map hnd hb' hb0 (by rw [h1, hrb, hbid0])
        rw [hbb, hrn0] at h2
        cases h2
      rw [h0]
      omega
    · refine countP_le_one_of_nodup_map (fun r => r.receipt_number) _ n0 _ hrnd ?_
      intro r hr hpr
      obtain ⟨b', hb', h1, h2⟩ := hlink r hr
      have hrb : r.booking_id = bid := by simpa using hpr
      have hbb : b' = b0 := List.inj_on_of_nodup_map hnd hb' hb0 (by rw [h1, hrb, hbid0])
      rw [hbb, hrn0] at h2
      exact (Option.some_inj.mp h2).symm
  · have h0 : ((runOps ops).receipts.countP (fun r => r.booking_id == bid)) = 0 := by
      rw [List.countP_eq_zero]
      intro r hr hpr
      obtain ⟨b', hb', h1, -⟩ := hlink r hr
      exact hb ⟨b', hb', by rw [h1]; simpa using hpr⟩
    rw [h0]
    omega

/-- C10: once any booking row for a (household, slot) pair exists — its
booking_status does not matter, in particular a cancelled one — every
later create for the same pair fails with the duplicate-booking error and
changes nothing: the UNIQUE constraint is on the bare pair, so a household
can never rebook a slot after cancelling. -/
theorem booking_pair_unique_even_cancelled (db : DB) (hh sid : Nat) (b : Booking)
    (w c : Int) (pm : PaymentMethod) (today : Nat)
    (hb : b ∈ db.bookings) (hhh : b.household_id = hh) (hsid : b.slot_id = sid) :
    create_booking db hh sid w c pm today = (db, none) := by
  refine create_booking_dup db hh sid w c pm today ?_
  refine List.any_eq_true.mpr ⟨b, hb, ?_⟩
  simp [hhh, hsid]

/-- Witness for C10: after household 1 cancels its booking for slot 1, a
fresh create for the same pair still fails. -/
theorem booking_pair_unique_even_cancelled_witness :
    create_booking demoCancelled 1 1 150 8 PaymentMethod.cash 9 = (demoCancelled, none) ∧
    demoCancelledBooking.booking_status = BookingStatus.cancelled :=
  ⟨booking_pair_unique_even_cancelled demoCancelled 1 1 demoCancelledBooking 150 8
    PaymentMethod.cash 9 (by decide) (by decide) (by decide), by decide⟩

end Cwas
